import Mathlib

/-!
# Verification of the ENIGMA front-end parser (`CompilerSource/parsing/parser.cpp`)

The development embeds the class `AstBuilder` of `parser.cpp`: its three
fields (`lexer`, `herr`, `token`) become a record that is threaded through
every method, a returned `std::unique_ptr<AST::Node>` becomes `Option Node`
(`none` is `nullptr`), and the recursion of the methods is bounded by an
explicit fuel argument (`none` at the outer level means the fuel ran out).
-/

namespace enigma.parsing

/-- Token kinds: the enumerators of `TokenType` that `parser.cpp` names in its
two `switch (token.type)` statements (the header `tokens.h` declares them). -/
inductive TokenType where
  | TT_BEGINBRACE | TT_ENDBRACE | TT_ENDPARENTH | TT_ENDBRACKET | TT_ENDOFCODE
  | TT_SEMICOLON | TT_COLON | TT_COMMA | TT_ASSIGN | TT_ASSOP
  | TT_DOT | TT_ARROW | TT_DOT_STAR | TT_ARROW_STAR
  | TT_PERCENT | TT_PIPE | TT_CARET
  | TT_AND | TT_OR | TT_XOR | TT_DIV | TT_MOD
  | TT_EQUALS | TT_SLASH | TT_EQUALTO | TT_NOTEQUAL
  | TT_LESS | TT_GREATER | TT_LESSEQUAL | TT_THREEWAY
  | TT_GREATEREQUAL | TT_LSH | TT_RSH
  | TT_QMARK
  | TT_NOT | TT_BANG | TT_PLUS | TT_MINUS
  | TT_STAR | TT_AMPERSAND | TT_TILDE
  | TT_INCREMENT | TT_DECREMENT
  | TT_BEGINPARENTH | TT_BEGINBRACKET
  | TT_IDENTIFIER
  | TT_DECLITERAL | TT_BINLITERAL | TT_OCTLITERAL
  | TT_HEXLITERAL | TT_STRINGLIT | TT_CHARLIT
  | TT_SCOPEACCESS
  | TT_TYPE_NAME
  | TT_LOCAL | TT_GLOBAL
  | TT_RETURN | TT_EXIT | TT_BREAK | TT_CONTINUE
  | TT_S_SWITCH | TT_S_CASE | TT_S_DEFAULT
  | TT_S_FOR | TT_S_DO | TT_S_WHILE | TT_S_UNTIL
  | TT_S_REPEAT | TT_S_IF | TT_S_THEN | TT_S_ELSE
  | TT_S_WITH | TT_S_TRY | TT_S_CATCH
  | TT_S_NEW | TT_S_DELETE
  | TT_CLASS | TT_STRUCT
  | TTM_WHITESPACE | TTM_CONCAT | TTM_STRINGIFY
  | TT_ERROR
  deriving DecidableEq, Repr

open TokenType

/-- A lexical unit: its kind (`token.type`), its raw text (`token.content`)
and its source position. -/
structure Token where
  type : TokenType
  content : String
  position : Nat
  deriving DecidableEq, Repr

/-- Modelled from the spec: the token stream behind `Lexer *lexer` (the class
`Lexer` of `lexer.h` is not part of the sources at hand). It is a pull-based
source of tokens that surfaces a dedicated end-of-stream token, again and
again, once the pending tokens are exhausted. -/
structure Lexer where
  pending : List Token
  endPosition : Nat
  deriving DecidableEq, Repr

/-- The end-of-stream token the lexer hands out when nothing is pending. -/
def Lexer.endToken (lx : Lexer) : Token :=
  { type := TT_ENDOFCODE, content := "", position := lx.endPosition }

/-- Modelled from the spec: `Lexer::ReadToken`, the `next() -> Token` of the
token-stream interface. Returns the token read and the advanced lexer. -/
def Lexer.ReadToken (lx : Lexer) : Token × Lexer :=
  match lx.pending with
  | [] => (lx.endToken, lx)
  | t :: rest => (t, { lx with pending := rest })

/-- Severity of a report made to the `ErrorHandler`. -/
inductive Severity where
  | error | warning
  deriving DecidableEq, Repr

/-- One piece streamed into a diagnostic message with `<<`: literal text or
a token (`herr->Error(token) << "..." << token`). -/
inductive MessagePart where
  | text (s : String)
  | tok (t : Token)
  deriving DecidableEq, Repr

/-- A report received by the diagnostic sink: severity, the token it is keyed
to, and the message as the sequence of pieces streamed into it. -/
structure Diagnostic where
  severity : Severity
  at_ : Token
  message : List MessagePart
  deriving DecidableEq, Repr

/-- The AST nodes `parser.cpp` constructs. An owned child is a
`std::unique_ptr`, which may be null: such a child is an `Option Node`, and
the elements of an `Array` are a `std::vector` of such pointers. -/
inductive Node where
  | CodeBlock (statements : List Node)
  | Literal (value : Token)
  | Array (elements : List (Option Node))
  | Parenthetical (expression : Option Node)
  | UnaryExpression (operand : Option Node) (operation : TokenType)
  | BinaryExpression (operation : TokenType) (left right : Option Node)
  deriving Repr

/-- The named precedence levels of `precedence.h` used by the parser. The
header is not part of the sources at hand, so the levels are a parameter. -/
structure Precedence where
  kMin : Int
  kAll : Int
  kComma : Int
  kUnaryPrefix : Int
  kScope : Int
  deriving DecidableEq, Repr

/-- The fields of `class AstBuilder`: the lexer, the diagnostics received so
far by `herr`, and the current token. -/
structure AstBuilder where
  lexer : Lexer
  herr : List Diagnostic
  token : Token
  deriving DecidableEq, Repr

/-- The statement `token = lexer->ReadToken();`. -/
def AstBuilder.readToken (self : AstBuilder) : AstBuilder :=
  { self with token := self.lexer.ReadToken.1, lexer := self.lexer.ReadToken.2 }

/-- The call `herr->ReportError(tok, msg)`. -/
def AstBuilder.ReportError (self : AstBuilder) (tok : Token) (msg : String) : AstBuilder :=
  { self with herr := self.herr ++ [⟨Severity.error, tok, [MessagePart.text msg]⟩] }

/-- The call `herr->ReportWarning(tok, msg)`. -/
def AstBuilder.ReportWarning (self : AstBuilder) (tok : Token) (msg : String) : AstBuilder :=
  { self with herr := self.herr ++ [⟨Severity.warning, tok, [MessagePart.text msg]⟩] }

/-- The statement `herr->Error(tok) << part1 << part2 ...;`. -/
def AstBuilder.Error (self : AstBuilder) (tok : Token) (parts : List MessagePart) : AstBuilder :=
  { self with herr := self.herr ++ [⟨Severity.error, tok, parts⟩] }

/-- Result of a parsing method: `none` when the fuel ran out, else the
returned pointer (`none` for `nullptr`) and the builder afterwards. -/
abbrev Parsed := Option (Option Node × AstBuilder)

mutual

/-- The method `AstBuilder::TryParseOperand` (parser.cpp, lines 21-127). -/
def TryParseOperand (P : Precedence) : Nat → AstBuilder → Parsed
  | 0, _ => none
  | fuel + 1, self =>
    let self := self.readToken
    match self.token.type with
    | TT_BEGINBRACE | TT_ENDBRACE
    | TT_ENDPARENTH | TT_ENDBRACKET
    | TT_ENDOFCODE =>
      some (none, self)
    | TT_SEMICOLON =>
      some (some (Node.CodeBlock []), self)
    | TT_COLON =>
      let self := self.ReportError self.token "Expected label or ternary expression before colon"
      let self := self.readToken
      some (none, self)
    | TT_COMMA =>
      let self := self.ReportError self.token "Expected expression before comma"
      let self := self.readToken
      some (none, self)
    | TT_ASSIGN
    | TT_ASSOP =>
      let self := self.ReportError self.token
        "Expected assignable expression before assignment operator"
      let self := self.readToken
      some (none, self)
    | TT_DOT | TT_ARROW =>
      let self := self.ReportError self.token "Expected expression before member access"
      let self := self.readToken
      some (none, self)
    | TT_DOT_STAR | TT_ARROW_STAR =>
      let self := self.ReportError self.token "Expected expression before pointer-to-member"
      let self := self.readToken
      some (none, self)
    | TT_PERCENT | TT_PIPE | TT_CARET
    | TT_AND | TT_OR | TT_XOR | TT_DIV | TT_MOD
    | TT_EQUALS | TT_SLASH | TT_EQUALTO | TT_NOTEQUAL
    | TT_LESS | TT_GREATER | TT_LESSEQUAL | TT_THREEWAY
    | TT_GREATEREQUAL | TT_LSH | TT_RSH =>
      let self := self.Error self.token
        [MessagePart.text "Expected expression before binary operator `",
         MessagePart.text self.token.content, MessagePart.text "`"]
      let self := self.readToken
      some (none, self)
    | TT_QMARK =>
      let self := self.Error self.token
        [MessagePart.text "Expected expression before ternary operator ?"]
      let self := self.readToken
      some (none, self)
    | TT_NOT | TT_BANG | TT_PLUS | TT_MINUS
    | TT_STAR | TT_AMPERSAND | TT_TILDE
    | TT_INCREMENT | TT_DECREMENT =>
      let unary_op := self.token
      let self := self.readToken
      match TryParseExpression P fuel P.kUnaryPrefix self with
      | none => none
      | some (some exp, self) =>
        some (some (Node.UnaryExpression (some exp) unary_op.type), self)
      | some (none, self) =>
        let self := self.Error unary_op
          [MessagePart.text "Expected expression following unary operator"]
        -- no `return` or `break` here: control falls into `case TT_BEGINPARENTH`
        let self := self.readToken
        match TryParseExpression P fuel P.kMin self with
        | none => none
        | some (exp, self) =>
          let self :=
            if self.token.type = TT_ENDPARENTH then self.readToken
            else self.Error self.token
              [MessagePart.text "Expected closing parenthesis before ",
               MessagePart.tok self.token]
          some (some (Node.Parenthetical exp), self)
    | TT_BEGINPARENTH =>
      let self := self.readToken
      match TryParseExpression P fuel P.kMin self with
      | none => none
      | some (exp, self) =>
        let self :=
          if self.token.type = TT_ENDPARENTH then self.readToken
          else self.Error self.token
            [MessagePart.text "Expected closing parenthesis before ",
             MessagePart.tok self.token]
        some (some (Node.Parenthetical exp), self)
    | TT_BEGINBRACKET =>
      let self := self.readToken
      match arrayElements P fuel self [] with
      | none => none
      | some (elements, self) =>
        let self :=
          if self.token.type = TT_ENDBRACKET then self.readToken
          else self.Error self.token [MessagePart.text "Expected closing `]` for array"]
        some (some (Node.Array elements), self)
    | TT_IDENTIFIER
    | TT_DECLITERAL | TT_BINLITERAL | TT_OCTLITERAL
    | TT_HEXLITERAL | TT_STRINGLIT | TT_CHARLIT =>
      some (some (Node.Literal self.token), self)
    | TT_SCOPEACCESS
    | TT_TYPE_NAME
    | TT_LOCAL
    | TT_GLOBAL
    | TT_RETURN | TT_EXIT | TT_BREAK | TT_CONTINUE
    | TT_S_SWITCH | TT_S_CASE | TT_S_DEFAULT
    | TT_S_FOR | TT_S_DO | TT_S_WHILE | TT_S_UNTIL
    | TT_S_REPEAT | TT_S_IF | TT_S_THEN | TT_S_ELSE
    | TT_S_WITH | TT_S_TRY | TT_S_CATCH
    | TT_S_NEW | TT_S_DELETE
    | TT_CLASS | TT_STRUCT
    | TTM_WHITESPACE | TTM_CONCAT | TTM_STRINGIFY
    | TT_ERROR =>
      some (none, self)

/-- The loop of the `TT_BEGINBRACKET` case (parser.cpp, lines 89-93):
`while (element = TryParseExpression(Precedence::kComma))` with its body.
Returns the vector `elements` and the builder when the loop is left. -/
def arrayElements (P : Precedence) :
    Nat → AstBuilder → List (Option Node) → Option (List (Option Node) × AstBuilder)
  | 0, _, _ => none
  | fuel + 1, self, elements =>
    match TryParseExpression P fuel P.kComma self with
    | none => none
    | some (none, self) => some (elements, self)
    | some (some element, self) =>
      let elements := elements ++ [some element]
      if self.token.type ≠ TT_COMMA then some (elements, self)
      else
        let self := self.readToken
        arrayElements P fuel self elements

/-- The method `AstBuilder::TryParseExpression` (parser.cpp, lines 129-140):
the operand is returned as is, `precedence` is not used. -/
def TryParseExpression (P : Precedence) : Nat → Int → AstBuilder → Parsed
  | 0, _, _ => none
  | fuel + 1, _precedence, self =>
    match TryParseOperand P fuel self with
    | none => none
    | some (some operand, self) => some (some operand, self)
    | some (none, self) => some (none, self)

end

/-- Number of tokens the lexer still holds. -/
def AstBuilder.remaining (self : AstBuilder) : Nat := self.lexer.pending.length

/-- What a call of a parsing method that returns guarantees about the lexer:
it never un-reads a token, and a non-null result has read at least one. -/
def Parsed.Progress (self : AstBuilder) (r : Parsed) : Prop :=
  ∃ node self', r = some (node, self') ∧ self'.remaining ≤ self.remaining ∧
    (node ≠ none → self'.remaining < self.remaining)

/-- The token kinds of the `Literal` case of `TryParseOperand` (parser.cpp,
lines 102-104): identifiers and the numeric, string and character literals. -/
def Token.isLiteral (t : Token) : Prop :=
  t.type = TT_IDENTIFIER ∨ t.type = TT_DECLITERAL ∨ t.type = TT_BINLITERAL ∨
  t.type = TT_OCTLITERAL ∨ t.type = TT_HEXLITERAL ∨ t.type = TT_STRINGLIT ∨
  t.type = TT_CHARLIT

instance (t : Token) : Decidable t.isLiteral := by
  unfold Token.isLiteral; infer_instance

/-- The diagnostic of `herr->Error(tok) << "Expected closing `]` for array"`. -/
def expectedClosingBracket (tok : Token) : Diagnostic :=
  ⟨Severity.error, tok, [MessagePart.text "Expected closing `]` for array"]⟩

/-- The diagnostic of
`herr->Error(tok) << "Expected closing parenthesis before " << tok`. -/
def expectedClosingParenthesis (tok : Token) : Diagnostic :=
  ⟨Severity.error, tok,
    [MessagePart.text "Expected closing parenthesis before ", MessagePart.tok tok]⟩

/-- The diagnostic of
`herr->Error(op) << "Expected expression following unary operator"`. -/
def expectedOperandAfterUnary (op : Token) : Diagnostic :=
  ⟨Severity.error, op, [MessagePart.text "Expected expression following unary operator"]⟩

/-- The diagnostic of `herr->ReportError(tok, "Expected expression before comma")`. -/
def expectedExpressionBeforeComma (tok : Token) : Diagnostic :=
  ⟨Severity.error, tok, [MessagePart.text "Expected expression before comma"]⟩

/-- Sample precedence levels for the concrete evaluations below (the parser
never inspects a level, so the values are immaterial). -/
def Precedence.sample : Precedence :=
  { kMin := 0, kAll := 0, kComma := 1, kUnaryPrefix := 14, kScope := 17 }

/-- A builder that has read nothing yet: the stream `toks` is pending in the
lexer, no diagnostic has been reported, and the token field holds a
placeholder (the first thing every parsing method does is overwrite it). -/
def AstBuilder.start (toks : List Token) : AstBuilder :=
  { lexer := { pending := toks, endPosition := toks.length }
    herr := []
    token := { type := TT_ERROR, content := "", position := 0 } }

/-- The end-of-stream token of a stream of `n` tokens. -/
def eofAt (n : Nat) : Token := { type := TT_ENDOFCODE, content := "", position := n }

/-- Sample tokens: the identifiers `a`, `b`, `c`, `x`, `y` (by position). -/
def ident (name : String) (position : Nat) : Token :=
  { type := TT_IDENTIFIER, content := name, position := position }

/-- Sample tokens: a punctuation or operator token of the given kind. -/
def punct (type : TokenType) (content : String) (position : Nat) : Token :=
  { type := type, content := content, position := position }

/-! ## The statement dispatcher -/

/-- The methods of `parser.cpp` whose body is empty (`ReadConditionalStatement`,
lines 156-159, and the methods after `// TODO: the following.`, lines 278-331)
execute no statement: they read no token and report nothing. The pointer such
a method hands back is not determined by the source; it is a parameter, one
field per method. -/
structure Stubs where
  ReadConditionalStatement : Option Node
  ParseCodeBlock : Option Node
  ParseIfStatement : Option Node
  ParseForLoop : Option Node
  ParseWhileLoop : Option Node
  ParseUntilLoop : Option Node
  ParseDoLoop : Option Node
  ParseRepeatStatement : Option Node
  ParseReturnStatement : Option Node
  ParseBreakStatement : Option Node
  ParseContinueStatement : Option Node
  ParseExitStatement : Option Node
  ParseSwitchStatement : Option Node
  ParseCaseStatement : Option Node
  ParseDefaultStatement : Option Node
  ParseWithStatement : Option Node

/-- The method `AstBuilder::ReadConditionalStatement` (parser.cpp, lines
156-159): the body is empty, whatever the condition header looks like. -/
def ReadConditionalStatement (S : Stubs) (self : AstBuilder) : Option Node × AstBuilder :=
  (S.ReadConditionalStatement, self)

/-- The method `AstBuilder::ParseCodeBlock` (parser.cpp, lines 279-280): the
body is empty. -/
def ParseCodeBlock (S : Stubs) (self : AstBuilder) : Option Node × AstBuilder :=
  (S.ParseCodeBlock, self)

/-- The method `AstBuilder::ParseIfStatement` (lines 290-292), empty body. -/
def ParseIfStatement (S : Stubs) (self : AstBuilder) : Option Node × AstBuilder :=
  (S.ParseIfStatement, self)

/-- The method `AstBuilder::ParseForLoop` (lines 293-295), empty body. -/
def ParseForLoop (S : Stubs) (self : AstBuilder) : Option Node × AstBuilder :=
  (S.ParseForLoop, self)

/-- The method `AstBuilder::ParseWhileLoop` (lines 296-298), empty body. -/
def ParseWhileLoop (S : Stubs) (self : AstBuilder) : Option Node × AstBuilder :=
  (S.ParseWhileLoop, self)

/-- The method `AstBuilder::ParseUntilLoop` (lines 299-301), empty body. -/
def ParseUntilLoop (S : Stubs) (self : AstBuilder) : Option Node × AstBuilder :=
  (S.ParseUntilLoop, self)

/-- The method `AstBuilder::ParseDoLoop` (lines 302-304), empty body. -/
def ParseDoLoop (S : Stubs) (self : AstBuilder) : Option Node × AstBuilder :=
  (S.ParseDoLoop, self)

/-- The method `AstBuilder::ParseRepeatStatement` (lines 305-307), empty body. -/
def ParseRepeatStatement (S : Stubs) (self : AstBuilder) : Option Node × AstBuilder :=
  (S.ParseRepeatStatement, self)

/-- The method `AstBuilder::ParseReturnStatement` (lines 308-310), empty body. -/
def ParseReturnStatement (S : Stubs) (self : AstBuilder) : Option Node × AstBuilder :=
  (S.ParseReturnStatement, self)

/-- The method `AstBuilder::ParseBreakStatement` (lines 311-313), empty body. -/
def ParseBreakStatement (S : Stubs) (self : AstBuilder) : Option Node × AstBuilder :=
  (S.ParseBreakStatement, self)

/-- The method `AstBuilder::ParseContinueStatement` (lines 314-316), empty body. -/
def ParseContinueStatement (S : Stubs) (self : AstBuilder) : Option Node × AstBuilder :=
  (S.ParseContinueStatement, self)

/-- The method `AstBuilder::ParseExitStatement` (lines 317-319), empty body. -/
def ParseExitStatement (S : Stubs) (self : AstBuilder) : Option Node × AstBuilder :=
  (S.ParseExitStatement, self)

/-- The method `AstBuilder::ParseSwitchStatement` (lines 320-322), empty body. -/
def ParseSwitchStatement (S : Stubs) (self : AstBuilder) : Option Node × AstBuilder :=
  (S.ParseSwitchStatement, self)

/-- The method `AstBuilder::ParseCaseStatement` (lines 323-325), empty body. -/
def ParseCaseStatement (S : Stubs) (self : AstBuilder) : Option Node × AstBuilder :=
  (S.ParseCaseStatement, self)

/-- The method `AstBuilder::ParseDefaultStatement` (lines 326-328), empty body. -/
def ParseDefaultStatement (S : Stubs) (self : AstBuilder) : Option Node × AstBuilder :=
  (S.ParseDefaultStatement, self)

/-- The method `AstBuilder::ParseWithStatement` (lines 329-331), empty body. -/
def ParseWithStatement (S : Stubs) (self : AstBuilder) : Option Node × AstBuilder :=
  (S.ParseWithStatement, self)

/-- The method `AstBuilder::TryReadStatement` (parser.cpp, lines 161-276).
The fuel is the one handed to `TryParseExpression`. -/
def TryReadStatement (P : Precedence) (S : Stubs) (fuel : Nat) (self : AstBuilder) : Parsed :=
  let self := self.readToken
  match self.token.type with
  | TTM_WHITESPACE
  | TTM_CONCAT
  | TTM_STRINGIFY =>
    let self := self.ReportError self.token "Internal error: Unhandled preprocessing token"
    let self := self.readToken
    some (none, self)
  | TT_ERROR =>
    let self := self.ReportError self.token "Internal error: Bad token"
    let self := self.readToken
    some (none, self)
  | TT_COMMA =>
    let self := self.ReportError self.token "Expected expression before comma"
    let self := self.readToken
    some (none, self)
  | TT_ENDPARENTH =>
    let self := self.ReportError self.token "Unmatched closing parenthesis"
    let self := self.readToken
    some (none, self)
  | TT_ENDBRACKET =>
    let self := self.ReportError self.token "Unmatched closing bracket"
    let self := self.readToken
    some (none, self)
  | TT_SEMICOLON =>
    let self := self.ReportWarning self.token
      "Statement doesn't do anything (consider using `\x7b\x7d` instead of `;`)"
    let self := self.readToken
    some (some (Node.CodeBlock []), self)
  | TT_COLON | TT_ASSIGN | TT_ASSOP
  | TT_DOT | TT_ARROW | TT_DOT_STAR | TT_ARROW_STAR
  | TT_PERCENT | TT_PIPE | TT_CARET
  | TT_AND | TT_OR | TT_XOR
  | TT_DIV | TT_MOD | TT_SLASH
  | TT_EQUALS | TT_EQUALTO | TT_NOTEQUAL | TT_THREEWAY
  | TT_LESS | TT_GREATER | TT_LSH | TT_RSH
  | TT_LESSEQUAL | TT_GREATEREQUAL
  | TT_QMARK
  | TT_PLUS | TT_MINUS | TT_STAR | TT_AMPERSAND
  | TT_NOT | TT_BANG | TT_TILDE
  | TT_INCREMENT | TT_DECREMENT
  | TT_BEGINPARENTH | TT_BEGINBRACKET
  | TT_DECLITERAL | TT_BINLITERAL | TT_OCTLITERAL
  | TT_HEXLITERAL | TT_STRINGLIT | TT_CHARLIT
  | TT_SCOPEACCESS =>
    TryParseExpression P fuel P.kAll self
  | TT_ENDBRACE =>
    some (none, self)
  | TT_BEGINBRACE =>
    let (code, self) := ParseCodeBlock S self
    let self :=
      if self.token.type ≠ TT_ENDBRACE then self.ReportError self.token "Expected closing brace"
      else self
    some (code, self)
  | TT_IDENTIFIER =>
    let name := TryParseExpression P fuel P.kScope self
    name
  | TT_TYPE_NAME
  | TT_LOCAL
  | TT_GLOBAL
  | TT_RETURN => some (ParseReturnStatement S self)
  | TT_EXIT => some (ParseExitStatement S self)
  | TT_BREAK => some (ParseBreakStatement S self)
  | TT_CONTINUE => some (ParseContinueStatement S self)
  | TT_S_SWITCH => some (ParseSwitchStatement S self)
  | TT_S_REPEAT => some (ParseRepeatStatement S self)
  | TT_S_CASE => some (ParseCaseStatement S self)
  | TT_S_DEFAULT => some (ParseDefaultStatement S self)
  | TT_S_FOR => some (ParseForLoop S self)
  | TT_S_IF => some (ParseIfStatement S self)
  | TT_S_DO => some (ParseDoLoop S self)
  | TT_S_WHILE => some (ParseWhileLoop S self)
  | TT_S_UNTIL => some (ParseUntilLoop S self)
  | TT_S_WITH => some (ParseWithStatement S self)
  | TT_S_THEN =>
    let self := self.ReportError self.token "`then` statement not paired with an `if`"
    let self := self.readToken
    some (none, self)
  | TT_S_ELSE =>
    let self := self.ReportError self.token "`else` statement not paired with an `if`"
    let self := self.readToken
    some (none, self)
  | TT_S_TRY | TT_S_CATCH
  | TT_S_NEW | TT_S_DELETE
  | TT_CLASS | TT_STRUCT =>
    let self := self.ReportError self.token "Internal error: Unsupported C++ keyword"
    let self := self.readToken
    some (none, self)
  | TT_ENDOFCODE => some (none, self)

/-! ## Token classes and message text used by the claims -/

/-- The classes of tokens that can only stand mid-expression: one class per
group of case labels that shares an error message in `TryParseOperand`
(parser.cpp, lines 31-64). -/
inductive MidExpressionClass where
  | colon | comma | assignment | memberAccess | pointerToMember
  | binaryOperator | ternary
  deriving DecidableEq, Repr

/-- The mid-expression class of a token kind, after the case labels of
`TryParseOperand` (parser.cpp, lines 31-64); `none` for every other kind. -/
def TokenType.midExpressionClass : TokenType → Option MidExpressionClass
  | TT_COLON => some .colon
  | TT_COMMA => some .comma
  | TT_ASSIGN | TT_ASSOP => some .assignment
  | TT_DOT | TT_ARROW => some .memberAccess
  | TT_DOT_STAR | TT_ARROW_STAR => some .pointerToMember
  | TT_PERCENT | TT_PIPE | TT_CARET
  | TT_AND | TT_OR | TT_XOR | TT_DIV | TT_MOD
  | TT_EQUALS | TT_SLASH | TT_EQUALTO | TT_NOTEQUAL
  | TT_LESS | TT_GREATER | TT_LESSEQUAL | TT_THREEWAY
  | TT_GREATEREQUAL | TT_LSH | TT_RSH => some .binaryOperator
  | TT_QMARK => some .ternary
  | _ => none

/-- The message `TryParseOperand` reports for a token of the given
mid-expression class whose text is `content` (parser.cpp, lines 32-62). -/
def operandErrorMessage : MidExpressionClass → String → List MessagePart
  | .colon, _ => [MessagePart.text "Expected label or ternary expression before colon"]
  | .comma, _ => [MessagePart.text "Expected expression before comma"]
  | .assignment, _ =>
    [MessagePart.text "Expected assignable expression before assignment operator"]
  | .memberAccess, _ => [MessagePart.text "Expected expression before member access"]
  | .pointerToMember, _ => [MessagePart.text "Expected expression before pointer-to-member"]
  | .binaryOperator, content =>
    [MessagePart.text "Expected expression before binary operator `",
     MessagePart.text content, MessagePart.text "`"]
  | .ternary, _ => [MessagePart.text "Expected expression before ternary operator ?"]

/-- The string a message piece contributes; `showToken` stands for the
`operator<<` that prints a token. -/
def MessagePart.render (showToken : Token → String) : MessagePart → String
  | .text s => s
  | .tok t => showToken t

/-- The message string of a sequence of streamed pieces. -/
def renderMessage (showToken : Token → String) : List MessagePart → String
  | [] => ""
  | p :: ps => p.render showToken ++ renderMessage showToken ps

/-- The message string of a diagnostic. -/
def Diagnostic.render (showToken : Token → String) (d : Diagnostic) : String :=
  renderMessage showToken d.message

/-- The operand terminators: the block and group closers and end-of-stream
(among the case labels of parser.cpp, lines 24-26). -/
def TokenType.isTerminator : TokenType → Bool
  | TT_ENDBRACE | TT_ENDPARENTH | TT_ENDBRACKET | TT_ENDOFCODE => true
  | _ => false

/-- The keyword and control tokens: statement keywords, storage qualifiers,
type names and foreign keywords (among the case labels of parser.cpp, lines
109-121). -/
def TokenType.isKeyword : TokenType → Bool
  | TT_TYPE_NAME
  | TT_LOCAL | TT_GLOBAL
  | TT_RETURN | TT_EXIT | TT_BREAK | TT_CONTINUE
  | TT_S_SWITCH | TT_S_CASE | TT_S_DEFAULT
  | TT_S_FOR | TT_S_DO | TT_S_WHILE | TT_S_UNTIL
  | TT_S_REPEAT | TT_S_IF | TT_S_THEN | TT_S_ELSE
  | TT_S_WITH | TT_S_TRY | TT_S_CATCH
  | TT_S_NEW | TT_S_DELETE
  | TT_CLASS | TT_STRUCT => true
  | _ => false

/-- The tokens that can never start a statement: the case labels of
`TryReadStatement` that report and resynchronise (parser.cpp, lines 164-186
and 257-271). -/
def TokenType.neverStartsStatement : TokenType → Bool
  | TTM_WHITESPACE | TTM_CONCAT | TTM_STRINGIFY
  | TT_ERROR
  | TT_COMMA | TT_ENDPARENTH | TT_ENDBRACKET
  | TT_S_THEN | TT_S_ELSE
  | TT_S_TRY | TT_S_CATCH | TT_S_NEW | TT_S_DELETE
  | TT_CLASS | TT_STRUCT => true
  | _ => false

/-- The diagnostic of `herr->ReportWarning(tok, "Statement doesn't do anything
(consider using ... instead of `;`)")` (parser.cpp, line 189). -/
def emptyStatementWarning (tok : Token) : Diagnostic :=
  ⟨Severity.warning, tok,
    [MessagePart.text
      "Statement doesn't do anything (consider using `\x7b\x7d` instead of `;`)"]⟩

/-- The message `TryReadStatement` reports for a token kind that can never
start a statement (parser.cpp, lines 167-184 and 258-269); the empty string
for every other kind. -/
def strayTokenMessage : TokenType → String
  | TTM_WHITESPACE | TTM_CONCAT | TTM_STRINGIFY =>
    "Internal error: Unhandled preprocessing token"
  | TT_ERROR => "Internal error: Bad token"
  | TT_COMMA => "Expected expression before comma"
  | TT_ENDPARENTH => "Unmatched closing parenthesis"
  | TT_ENDBRACKET => "Unmatched closing bracket"
  | TT_S_THEN => "`then` statement not paired with an `if`"
  | TT_S_ELSE => "`else` statement not paired with an `if`"
  | TT_S_TRY | TT_S_CATCH | TT_S_NEW | TT_S_DELETE
  | TT_CLASS | TT_STRUCT => "Internal error: Unsupported C++ keyword"
  | _ => ""

/-- Sample values for the pointers handed back by the methods with an empty
body: all null. -/
def Stubs.sample : Stubs :=
  ⟨none, none, none, none, none, none, none, none,
   none, none, none, none, none, none, none, none⟩

/-- The diagnostic of `herr->ReportError(tok, "Expected closing brace")`. -/
def expectedClosingBrace (tok : Token) : Diagnostic :=
  ⟨Severity.error, tok, [MessagePart.text "Expected closing brace"]⟩

/-- Sample streams: the condition `( a ) op ( b ) x` that follows an `if`,
with `op` the given operator token. -/
def conditionStream (op : Token) : List Token :=
  [punct TT_BEGINPARENTH "(" 1, ident "a" 2, punct TT_ENDPARENTH ")" 3, op,
   punct TT_BEGINPARENTH "(" 5, ident "b" 6, punct TT_ENDPARENTH ")" 7, ident "x" 8]

/-! ## Recursion depth and tree invariants -/

mutual

/-- The number of nested activations of `TryParseOperand` that a call of
`TryParseOperand` reaches, this call included: one more than the deepest
activation below the recursive calls of parser.cpp, lines 71, 78 and 89. The
builders handed to the recursive calls are those of `TryParseOperand`. -/
def operandDepth (P : Precedence) : Nat → AstBuilder → Nat
  | 0, _ => 0
  | fuel + 1, self =>
    let self := self.readToken
    match self.token.type with
    | TT_NOT | TT_BANG | TT_PLUS | TT_MINUS
    | TT_STAR | TT_AMPERSAND | TT_TILDE
    | TT_INCREMENT | TT_DECREMENT =>
      let unary_op := self.token
      let self := self.readToken
      match TryParseExpression P fuel P.kUnaryPrefix self with
      | some (none, after) =>
        let after := after.Error unary_op
          [MessagePart.text "Expected expression following unary operator"]
        let after := after.readToken
        1 + max (expressionDepth P fuel self) (expressionDepth P fuel after)
      | _ => 1 + expressionDepth P fuel self
    | TT_BEGINPARENTH => 1 + expressionDepth P fuel self.readToken
    | TT_BEGINBRACKET => 1 + elementsDepth P fuel self.readToken
    | _ => 1

/-- The deepest activation of `TryParseOperand` below the loop of the
`TT_BEGINBRACKET` case (parser.cpp, lines 89-93): the maximum over the calls
of `TryParseExpression` the loop makes. -/
def elementsDepth (P : Precedence) : Nat → AstBuilder → Nat
  | 0, _ => 0
  | fuel + 1, self =>
    match TryParseExpression P fuel P.kComma self with
    | some (some _, after) =>
      if after.token.type ≠ TT_COMMA then expressionDepth P fuel self
      else max (expressionDepth P fuel self) (elementsDepth P fuel after.readToken)
    | _ => expressionDepth P fuel self

/-- The deepest activation of `TryParseOperand` below a call of
`TryParseExpression`, which calls `TryParseOperand` once (line 130). -/
def expressionDepth (P : Precedence) : Nat → AstBuilder → Nat
  | 0, _ => 0
  | fuel + 1, self => operandDepth P fuel self

end

/-- The node of `n` parentheses nested in one another around nothing:
`nullptr` for `n = 0`. -/
def nestedParentheses : Nat → Option Node
  | 0 => none
  | n + 1 => some (Node.Parenthetical (nestedParentheses n))

mutual

/-- Every `UnaryExpression` of the tree has an operand and every element of
every `Array` of the tree is present (not null). A `Parenthetical` or a
`BinaryExpression` is looked into where it has a child. -/
def Node.operandsPresent : Node → Bool
  | .CodeBlock statements => Node.allOperandsPresent statements
  | .Literal _ => true
  | .Array elements => Node.allElementsPresent elements
  | .Parenthetical expression => Node.presentOrNull expression
  | .UnaryExpression operand _ => Node.isPresent operand
  | .BinaryExpression _ left right => Node.presentOrNull left && Node.presentOrNull right

/-- The pointer is not null and its tree satisfies `operandsPresent`. -/
def Node.isPresent : Option Node → Bool
  | none => false
  | some n => n.operandsPresent

/-- The pointer is null or its tree satisfies `operandsPresent`. -/
def Node.presentOrNull : Option Node → Bool
  | none => true
  | some n => n.operandsPresent

/-- All pointers of the vector satisfy `isPresent`. -/
def Node.allElementsPresent : List (Option Node) → Bool
  | [] => true
  | e :: es => Node.isPresent e && Node.allElementsPresent es

/-- All nodes of the sequence satisfy `operandsPresent`. -/
def Node.allOperandsPresent : List Node → Bool
  | [] => true
  | n :: ns => n.operandsPresent && Node.allOperandsPresent ns

end

/-- The node types that the statement parsers of parser.cpp, lines 290-331,
declare as their result (`std::unique_ptr<AST::...>`). -/
inductive ResultType where
  | IfStatement | ForLoop | WhileLoop | DoLoop
  | ReturnStatement | BreakStatement | SwitchStatement | CaseStatement
  deriving DecidableEq, Repr

/-- The statement parsers the dispatcher calls for a control keyword
(parser.cpp, lines 242-255). -/
inductive StatementParser where
  | ParseReturnStatement | ParseExitStatement | ParseBreakStatement
  | ParseContinueStatement | ParseSwitchStatement | ParseRepeatStatement
  | ParseCaseStatement | ParseDefaultStatement | ParseForLoop | ParseIfStatement
  | ParseDoLoop | ParseWhileLoop | ParseUntilLoop | ParseWithStatement
  deriving DecidableEq, Repr

/-- The declared result type of each statement parser (parser.cpp, lines
290-331). -/
def StatementParser.resultType : StatementParser → ResultType
  | .ParseIfStatement => .IfStatement
  | .ParseForLoop => .ForLoop
  | .ParseWhileLoop => .WhileLoop
  | .ParseUntilLoop => .WhileLoop
  | .ParseDoLoop => .DoLoop
  | .ParseRepeatStatement => .DoLoop
  | .ParseReturnStatement => .ReturnStatement
  | .ParseBreakStatement => .BreakStatement
  | .ParseContinueStatement => .BreakStatement
  | .ParseExitStatement => .ReturnStatement
  | .ParseSwitchStatement => .SwitchStatement
  | .ParseCaseStatement => .CaseStatement
  | .ParseDefaultStatement => .CaseStatement
  | .ParseWithStatement => .CaseStatement

/-- The call of a statement parser: the pointer it hands back and the
builder, which an empty body leaves as it is. -/
def StatementParser.call (S : Stubs) (self : AstBuilder) :
    StatementParser → Option Node × AstBuilder
  | .ParseIfStatement => enigma.parsing.ParseIfStatement S self
  | .ParseForLoop => enigma.parsing.ParseForLoop S self
  | .ParseWhileLoop => enigma.parsing.ParseWhileLoop S self
  | .ParseUntilLoop => enigma.parsing.ParseUntilLoop S self
  | .ParseDoLoop => enigma.parsing.ParseDoLoop S self
  | .ParseRepeatStatement => enigma.parsing.ParseRepeatStatement S self
  | .ParseReturnStatement => enigma.parsing.ParseReturnStatement S self
  | .ParseBreakStatement => enigma.parsing.ParseBreakStatement S self
  | .ParseContinueStatement => enigma.parsing.ParseContinueStatement S self
  | .ParseExitStatement => enigma.parsing.ParseExitStatement S self
  | .ParseSwitchStatement => enigma.parsing.ParseSwitchStatement S self
  | .ParseCaseStatement => enigma.parsing.ParseCaseStatement S self
  | .ParseDefaultStatement => enigma.parsing.ParseDefaultStatement S self
  | .ParseWithStatement => enigma.parsing.ParseWithStatement S self

/-- Sample token: the opening parenthesis. -/
def lparen : Token := punct TT_BEGINPARENTH "(" 0

end enigma.parsing

/-!
# The binary buffers (`ENIGMAsystem/SHELL/Universal_System/bufferstruct.cpp`)

A `std::vector<std::byte>` is a list of bytes, `std::size_t` is a natural
number with the additions and subtractions on caller-supplied values taken
modulo `2 ^ 64`, and a function that would access a vector outside its bounds,
divide by zero or fail an `assert` returns `none`. `DEBUG_MESSAGE` only
reports; it does not change what a function does afterwards.
-/

namespace enigma_user

/-- The type `std::byte`. -/
abbrev Byte := Fin 256

/-- The macro `BYTE(x)`, `static_cast<std::byte>(x)`, on an unsigned value. -/
def BYTE (x : Nat) : Byte := Fin.ofNat x

/-- The number of values of `std::size_t` (64 bits). -/
def SIZE_RANGE : Nat := 2 ^ 64

/-- Addition of two `std::size_t` values. -/
def addSize (a b : Nat) : Nat := (a + b) % SIZE_RANGE

/-- Subtraction of two `std::size_t` values. -/
def subSize (a b : Nat) : Nat := (a + SIZE_RANGE - b % SIZE_RANGE) % SIZE_RANGE

/-- The buffer types `buffer_type_t` named in bufferstruct.cpp. -/
inductive buffer_type_t where
  | buffer_fixed | buffer_grow | buffer_wrap | buffer_fast
  deriving DecidableEq, Repr

/-- The data types `buffer_data_t` named in bufferstruct.cpp. -/
inductive buffer_data_t where
  | buffer_u8 | buffer_s8 | buffer_u16 | buffer_s16 | buffer_u32 | buffer_s32
  | buffer_u64 | buffer_f16 | buffer_f32 | buffer_f64 | buffer_bool
  | buffer_string | buffer_text
  deriving DecidableEq, Repr

open buffer_type_t buffer_data_t

/-- The tag `value.type` of a `variant`. -/
inductive variant_type where
  | ty_real | ty_string
  deriving DecidableEq, Repr

/-- A `variant`: its tag, its number `rval.d` (a finite `double`, held as a
rational) and its string `sval()`. -/
structure variant where
  type : variant_type
  rval_d : ℚ
  sval : List Byte
  deriving DecidableEq

/-- The variant constructed from a number. -/
def variant.real (d : ℚ) : variant := { type := .ty_real, rval_d := d, sval := [] }

/-- The variant constructed from a string. -/
def variant.string (s : List Byte) : variant := { type := .ty_string, rval_d := 0, sval := s }

/-- The bit patterns of `float` and `double` (`bit_cast`), which the sources
leave to the platform: a parameter. -/
structure FloatCodec where
  float_bits : ℚ → Nat
  double_bits : ℚ → Nat
  float_of_bits : Nat → ℚ
  double_of_bits : Nat → ℚ

/-- The integer part of a `double`, as every `static_cast` to an integer type
takes it (truncation toward zero). -/
def truncate (d : ℚ) : Int := Int.tdiv d.num d.den

/-- The value of an integer converted to the unsigned type of `w` bits. -/
def toUnsigned (w : Nat) (x : Int) : Nat := (x % 2 ^ w).toNat

/-- The value of an integer converted to the signed type of `w` bits; for a
value outside that type's range (undefined when the source is a `double`) the
value wrapped into the range. -/
def toSigned (w : Nat) (x : Int) : Int := (x + 2 ^ (w - 1)) % 2 ^ w - 2 ^ (w - 1)

/-- The integer `as_int` of the integer cases of `serialize_to_type`: the
`double` cast to the unsigned type when it exceeds the signed maximum, else
cast to the signed type and stored in the unsigned variable. -/
def asUnsigned (w : Nat) (d : ℚ) : Nat :=
  if d > ((2 ^ (w - 1) - 1 : Int) : ℚ) then toUnsigned w (truncate d)
  else toUnsigned w (toSigned w (truncate d))

/-- The `double` cast to `std::int64_t` (bufferstruct.cpp, line 110): its
integer part when that is in the range of the type. Outside the range the
language leaves the cast undefined; the value taken here is what the x86-64
conversion yields, the most negative integer. -/
def toInt64 (d : ℚ) : Int :=
  if -(2 ^ 63 : Int) ≤ truncate d ∧ truncate d < 2 ^ 63 then truncate d else -(2 ^ 63)

/-- The `double` nearest to an unsigned integer of at most 64 bits, as the
conversion of a `std::uint64_t` to `double` takes it: exact below `2 ^ 53`,
else rounded to 53 significant bits, a tie going to the even significand. -/
def uint64ToDouble (n : Nat) : Nat :=
  if n < 2 ^ 53 then n
  else
    let e := Nat.log2 n - 52
    let q := n >>> e
    let r := n % 2 ^ e
    let half := 2 ^ (e - 1)
    if r > half ∨ (r = half ∧ q % 2 = 1) then (q + 1) <<< e else q <<< e

/-- The function `serialize_to_type` (bufferstruct.cpp, lines 54-157). -/
def serialize_to_type (F : FloatCodec) (value : variant) : buffer_data_t → List Byte
  | buffer_u8 | buffer_s8 | buffer_bool =>
    let as_int := asUnsigned 8 value.rval_d
    [BYTE as_int]
  | buffer_u16 | buffer_s16 =>
    let as_int := asUnsigned 16 value.rval_d
    [BYTE ((as_int >>> 8) &&& 0xff), BYTE (as_int &&& 0xff)]
  | buffer_u32 | buffer_s32 =>
    let as_int := asUnsigned 32 value.rval_d
    [BYTE ((as_int >>> 24) &&& 0xff), BYTE ((as_int >>> 16) &&& 0xff),
     BYTE ((as_int >>> 8) &&& 0xff), BYTE (as_int &&& 0xff)]
  | buffer_u64 =>
    let as_int := toUnsigned 64 (toInt64 value.rval_d)
    [BYTE ((as_int >>> 56) &&& 0xff), BYTE ((as_int >>> 48) &&& 0xff),
     BYTE ((as_int >>> 40) &&& 0xff), BYTE ((as_int >>> 32) &&& 0xff),
     BYTE ((as_int >>> 24) &&& 0xff), BYTE ((as_int >>> 16) &&& 0xff),
     BYTE ((as_int >>> 8) &&& 0xff), BYTE (as_int &&& 0xff)]
  | buffer_f16 => []
  | buffer_f32 =>
    let as_int := F.float_bits value.rval_d % 2 ^ 32
    [BYTE ((as_int >>> 24) &&& 0xff), BYTE ((as_int >>> 16) &&& 0xff),
     BYTE ((as_int >>> 8) &&& 0xff), BYTE (as_int &&& 0xff)]
  | buffer_f64 =>
    let as_int := F.double_bits value.rval_d % 2 ^ 64
    [BYTE ((as_int >>> 56) &&& 0xff), BYTE ((as_int >>> 48) &&& 0xff),
     BYTE ((as_int >>> 40) &&& 0xff), BYTE ((as_int >>> 32) &&& 0xff),
     BYTE ((as_int >>> 24) &&& 0xff), BYTE ((as_int >>> 16) &&& 0xff),
     BYTE ((as_int >>> 8) &&& 0xff), BYTE (as_int &&& 0xff)]
  | buffer_string | buffer_text =>
    let val := value.sval
    let result := val
    result ++ [(0 : Byte)]

/-- The unsigned integer of `w` bits read from a span, most significant byte
first: `value = (value << 8) | byte` for each byte in turn. -/
def readUnsigned (w : Nat) (bytes : List Byte) : Nat :=
  bytes.foldl (fun value b => ((value <<< 8) ||| b.val) % 2 ^ w) 0

/-- The function `deserialize_from_type` (bufferstruct.cpp, lines 159-265) on
the span `[first, last)`. The result is `none` when the span has not the size
of the type (the `assert(first == last)` fails, or bytes beyond the span are
read) and for `buffer_f16` (`assert(... && false)`). -/
def deserialize_from_type (F : FloatCodec) (span : List Byte) :
    buffer_data_t → Option variant
  | buffer_u8 => if span.length ≠ 1 then none else some (variant.real (readUnsigned 8 span))
  | buffer_bool => if span.length ≠ 1 then none else some (variant.real (readUnsigned 8 span))
  | buffer_s8 =>
    if span.length ≠ 1 then none
    else some (variant.real (toSigned 8 (readUnsigned 8 span)))
  | buffer_u16 => if span.length ≠ 2 then none else some (variant.real (readUnsigned 16 span))
  | buffer_s16 =>
    if span.length ≠ 2 then none
    else some (variant.real (toSigned 16 (readUnsigned 16 span)))
  | buffer_u32 => if span.length ≠ 4 then none else some (variant.real (readUnsigned 32 span))
  | buffer_s32 =>
    if span.length ≠ 4 then none
    else some (variant.real (toSigned 32 (readUnsigned 32 span)))
  | buffer_u64 =>
    if span.length ≠ 8 then none
    else some (variant.real (uint64ToDouble (readUnsigned 64 span)))
  | buffer_f16 => none
  | buffer_f32 =>
    if span.length ≠ 4 then none
    else some (variant.real (F.float_of_bits (readUnsigned 32 span)))
  | buffer_f64 =>
    if span.length ≠ 8 then none
    else some (variant.real (F.double_of_bits (readUnsigned 64 span)))
  | buffer_string | buffer_text => some (variant.string span)

/-- The function `buffer_sizeof` (bufferstruct.cpp, lines 613-627). -/
def buffer_sizeof : buffer_data_t → Nat
  | buffer_u8 | buffer_s8 | buffer_bool => 1
  | buffer_u16 | buffer_s16 | buffer_f16 => 2
  | buffer_u32 | buffer_s32 | buffer_f32 => 4
  | buffer_u64 | buffer_f64 => 8
  | buffer_string | buffer_text => 0

/-- The fields of `enigma::BinaryBuffer` that bufferstruct.cpp uses. -/
structure BinaryBuffer where
  data : List Byte
  position : Nat
  alignment : Nat
  type : buffer_type_t
  deriving DecidableEq

/-- The method `BinaryBuffer::GetSize`: bufferstruct.cpp uses it and
`data.size()` for the same quantity (lines 270 and 274). -/
def BinaryBuffer.GetSize (b : BinaryBuffer) : Nat := b.data.length

/-- The method `BinaryBuffer::Resize`, taken as `data.resize(size)`: the
vector is cut or extended with zero bytes. -/
def BinaryBuffer.Resize (b : BinaryBuffer) (size : Nat) : BinaryBuffer :=
  { b with data := b.data.take size ++ List.replicate (size - b.data.length) (0 : Byte) }

/-- The methods of `BinaryBuffer` that move the position; their definitions
are not part of the sources at hand, so they are a parameter. -/
structure BinaryBufferMethods where
  Seek : BinaryBuffer → Int → BinaryBuffer
  WriteByte : BinaryBuffer → Byte → BinaryBuffer
  ReadByte : BinaryBuffer → Byte × BinaryBuffer

/-- The call `std::copy(src.begin(), src.end(), dest.begin() + offset)`: the
elements of `src` overwrite those of `dest` from index `offset` on; `none`
when an element would be written at an index outside `dest`. -/
def copyInto (dest : List Byte) (offset : Nat) (src : List Byte) : Option (List Byte) :=
  if src.length = 0 then some dest
  else if offset + src.length ≤ dest.length then
    some (dest.take offset ++ src ++ dest.drop (offset + src.length))
  else none

/-- The function `write_to_buffer` (bufferstruct.cpp, lines 267-304). -/
def write_to_buffer (binbuff : BinaryBuffer) (data : List Byte) (offset : Nat) :
    Option BinaryBuffer :=
  match binbuff.type with
  | buffer_wrap =>
    if binbuff.GetSize = 0 ∧ offset ≥ binbuff.GetSize then none
    else
      let offset := if offset ≥ binbuff.GetSize then offset % binbuff.GetSize else offset
      if addSize data.length offset > binbuff.data.length then
        let extra := subSize (addSize data.length offset) binbuff.data.length
        match copyInto binbuff.data offset (data.take (data.length - extra)) with
        | none => none
        | some d =>
          match copyInto d 0 (data.drop (data.length - extra)) with
          | none => none
          | some d => some { binbuff with data := d }
      else
        match copyInto binbuff.data offset data with
        | none => none
        | some d => some { binbuff with data := d }
  | buffer_grow =>
    let binbuff :=
      if addSize data.length offset > binbuff.data.length then
        binbuff.Resize (addSize data.length offset)
      else binbuff
    match copyInto binbuff.data offset data with
    | none => none
    | some d => some { binbuff with data := d }
  | buffer_fixed
  | buffer_fast =>
    if offset ≥ binbuff.data.length then some binbuff
    else
      let over :=
        if addSize data.length offset > binbuff.data.length then
          subSize (addSize data.length offset) binbuff.data.length
        else 0
      match copyInto binbuff.data offset (data.take (data.length - over)) with
      | none => none
      | some d => some { binbuff with data := d }

/-- The function `buffer_poke` (bufferstruct.cpp, lines 678-695) on the buffer
that `GET_BUFFER` has looked up. -/
def buffer_poke (F : FloatCodec) (binbuff : BinaryBuffer) (offset : Nat)
    (type : buffer_data_t) (value : variant) (resize : Bool) : Option BinaryBuffer :=
  let data := serialize_to_type F value type
  if addSize data.length offset > binbuff.GetSize ∧
      ((resize = false ∧ binbuff.type = buffer_grow) ∨
        binbuff.type = buffer_fixed ∨ binbuff.type = buffer_fast) then
    some binbuff
  else write_to_buffer binbuff data offset

/-- The loop `while (offset % alignment != 0 && offset < GetSize())` of
`buffer_fill` (lines 511-514); it ends within `alignment` rounds, which is the
fuel. -/
def alignOffset (M : BinaryBufferMethods) :
    Nat → BinaryBuffer → Nat → BinaryBuffer × Nat
  | 0, binbuff, offset => (binbuff, offset)
  | fuel + 1, binbuff, offset =>
    if offset % binbuff.alignment ≠ 0 ∧ offset < binbuff.GetSize then
      alignOffset M fuel (M.WriteByte binbuff 0) (offset + 1)
    else (binbuff, offset)

/-- The loop `for (i = 0; i < times; i++)` of `buffer_fill` (lines 533-538),
from round `i` on with `rounds` rounds to go. -/
def fillElements (bytes padding_bytes : List Byte) (offset element_size : Nat) :
    Nat → Nat → List Byte → Option (List Byte)
  | 0, _, data => some data
  | rounds + 1, i, data =>
    match copyInto data (offset + i * element_size) bytes with
    | none => none
    | some data =>
      match copyInto data (offset + i * element_size + bytes.length) padding_bytes with
      | none => none
      | some data => fillElements bytes padding_bytes offset element_size rounds (i + 1) data

/-- The function `buffer_fill` (bufferstruct.cpp, lines 503-548) on the buffer
that `GET_BUFFER` has looked up. -/
def buffer_fill (M : BinaryBufferMethods) (F : FloatCodec) (binbuff : BinaryBuffer)
    (offset : Nat) (type : buffer_data_t) (value : variant) (size : Nat) :
    Option BinaryBuffer :=
  if binbuff.alignment = 0 then none
  else
    let (binbuff, offset) := alignOffset M binbuff.alignment binbuff offset
    let size :=
      if addSize offset size > binbuff.GetSize then subSize binbuff.GetSize offset else size
    let bytes := serialize_to_type F value type
    let padding :=
      if bytes.length % binbuff.alignment ≠ 0 then
        binbuff.alignment - bytes.length % binbuff.alignment
      else 0
    let padding_bytes := List.replicate padding (0 : Byte)
    let element_size := bytes.length + padding
    if element_size = 0 then none
    else
      let times := size / element_size
      let remainder := size % element_size
      match fillElements bytes padding_bytes offset element_size times 0 binbuff.data with
      | none => none
      | some data =>
        let filled : Option (List Byte) :=
          if remainder ≠ 0 ∧ remainder ≥ bytes.length then
            match copyInto data (offset + times * element_size) bytes with
            | none => none
            | some data =>
              if remainder - bytes.length ≥ padding_bytes.length then
                copyInto data (offset + times * element_size + bytes.length) bytes
              else some data
          else some data
        match filled with
        | none => none
        | some data => some (M.Seek { binbuff with data := data } 0)

/-- The integers a data type represents: `buffer_u8` and `buffer_bool` 8 bits
unsigned, `buffer_s8` 8 bits signed, and so on to 32 bits; no integer for the
other types. -/
def representable : buffer_data_t → Int → Prop
  | buffer_u8, v => 0 ≤ v ∧ v ≤ 255
  | buffer_bool, v => 0 ≤ v ∧ v ≤ 255
  | buffer_s8, v => -128 ≤ v ∧ v ≤ 127
  | buffer_u16, v => 0 ≤ v ∧ v ≤ 65535
  | buffer_s16, v => -32768 ≤ v ∧ v ≤ 32767
  | buffer_u32, v => 0 ≤ v ∧ v ≤ 4294967295
  | buffer_s32, v => -2147483648 ≤ v ∧ v ≤ 2147483647
  | _, _ => False

/-- Sample bit patterns for the concrete evaluations: every pattern zero. -/
def FloatCodec.sample : FloatCodec :=
  { float_bits := fun _ => 0, double_bits := fun _ => 0,
    float_of_bits := fun _ => 0, double_of_bits := fun _ => 0 }

/-- Sample position methods for the concrete evaluations: `Seek` sets the
position, `WriteByte` stores at the position when it is inside the buffer and
advances, `ReadByte` reads at the position and advances. -/
def BinaryBufferMethods.sample : BinaryBufferMethods :=
  { Seek := fun b offset => { b with position := offset.toNat }
    WriteByte := fun b byte =>
      { b with data := b.data.set b.position byte, position := b.position + 1 }
    ReadByte := fun b => (b.data.getD b.position 0, { b with position := b.position + 1 }) }

/-- The loop of `buffer_peek` for `buffer_string` and `buffer_text`
(bufferstruct.cpp, lines 643-651), from position `pos` on with `data` read so
far; `none` when the fuel runs out. -/
def peekString (binbuff : BinaryBuffer) : Nat → Nat → List Byte → Option (List Byte)
  | 0, _, _ => none
  | fuel + 1, pos, data =>
    if pos < binbuff.GetSize ∧ binbuff.data.getD pos 0 ≠ 0 then
      let data := data ++ [binbuff.data.getD pos 0]
      let pos := if binbuff.type = buffer_wrap then (pos + 1) % binbuff.GetSize else pos + 1
      peekString binbuff fuel pos data
    else some data

/-- The function `buffer_peek` (bufferstruct.cpp, lines 634-655) on the buffer
that `GET_BUFFER_R` has looked up. The fuel bounds the loop of the string
branch; the span of the other branch must lie inside the buffer. -/
def buffer_peek (F : FloatCodec) (fuel : Nat) (binbuff : BinaryBuffer) (offset : Nat)
    (type : buffer_data_t) : Option variant :=
  if type ≠ buffer_string ∧ type ≠ buffer_text then
    if offset + buffer_sizeof type ≤ binbuff.data.length then
      deserialize_from_type F ((binbuff.data.drop offset).take (buffer_sizeof type)) type
    else none
  else
    match peekString binbuff fuel offset [] with
    | none => none
    | some data => some (variant.string data)

/-- The loop `while (binbuff->position % binbuff->alignment != 0)` of
`buffer_read` (lines 659-663), which calls `ReadByte`. -/
def alignRead (M : BinaryBufferMethods) : Nat → BinaryBuffer → Option BinaryBuffer
  | 0, _ => none
  | fuel + 1, binbuff =>
    if binbuff.position % binbuff.alignment ≠ 0 then alignRead M fuel (M.ReadByte binbuff).2
    else some binbuff

/-- The loop `while (binbuff->position % binbuff->alignment != 0)` of
`buffer_write` (lines 699-701), which calls `WriteByte(std::byte{0})`. -/
def alignWrite (M : BinaryBufferMethods) : Nat → BinaryBuffer → Option BinaryBuffer
  | 0, _ => none
  | fuel + 1, binbuff =>
    if binbuff.position % binbuff.alignment ≠ 0 then alignWrite M fuel (M.WriteByte binbuff 0)
    else some binbuff

/-- The loop that reads a string to its terminator (lines 670-672 and
709-711): `ReadByte` while the position is inside the buffer and the byte
there is not zero. -/
def skipString (M : BinaryBufferMethods) : Nat → BinaryBuffer → Option BinaryBuffer
  | 0, _ => none
  | fuel + 1, binbuff =>
    if binbuff.position < binbuff.GetSize ∧ binbuff.data.getD binbuff.position 0 ≠ 0 then
      skipString M fuel (M.ReadByte binbuff).2
    else some binbuff

/-- The end of `buffer_read` and of `buffer_write` (lines 667-674 and
706-713): the position is moved past the value of the given type. -/
def advancePosition (M : BinaryBufferMethods) (fuel : Nat) (binbuff : BinaryBuffer)
    (type : buffer_data_t) : Option BinaryBuffer :=
  if type ≠ buffer_string ∧ type ≠ buffer_string then
    some (M.Seek binbuff (addSize binbuff.position (buffer_sizeof type)))
  else
    match skipString M fuel binbuff with
    | none => none
    | some binbuff => some (M.ReadByte binbuff).2

/-- The function `buffer_read` (bufferstruct.cpp, lines 657-676) on the buffer
that `GET_BUFFER_R` has looked up; the fuel bounds each of its loops. -/
def buffer_read (M : BinaryBufferMethods) (F : FloatCodec) (fuel : Nat)
    (binbuff : BinaryBuffer) (type : buffer_data_t) : Option (variant × BinaryBuffer) :=
  if binbuff.alignment = 0 then none
  else
    match alignRead M fuel binbuff with
    | none => none
    | some binbuff =>
      match buffer_peek F fuel binbuff binbuff.position type with
      | none => none
      | some result =>
        match advancePosition M fuel binbuff type with
        | none => none
        | some binbuff => some (result, binbuff)

/-- The function `buffer_write` (bufferstruct.cpp, lines 697-714) on the
buffer that `GET_BUFFER` has looked up; the fuel bounds each of its loops. -/
def buffer_write (M : BinaryBufferMethods) (F : FloatCodec) (fuel : Nat)
    (binbuff : BinaryBuffer) (type : buffer_data_t) (value : variant) :
    Option BinaryBuffer :=
  if binbuff.alignment = 0 then none
  else
    match alignWrite M fuel binbuff with
    | none => none
    | some binbuff =>
      let data := serialize_to_type F value type
      match write_to_buffer binbuff data binbuff.position with
      | none => none
      | some binbuff => advancePosition M fuel binbuff type

/-- One of the copy loops of `buffer_copy` (lines 388-394 and 410-416):
`for (i = 0; i < size; i++) dst[dstIndex i] = src[srcIndex i]`, from round `i`
on with `rounds` rounds to go; `none` when an index lies outside its vector. -/
def copyElements (srcIndex dstIndex : Nat → Nat) (src : List Byte) :
    Nat → Nat → List Byte → Option (List Byte)
  | 0, _, dst => some dst
  | rounds + 1, i, dst =>
    match src[srcIndex i]? with
    | none => none
    | some v =>
      if dstIndex i < dst.length then
        copyElements srcIndex dstIndex src rounds (i + 1) (dst.set (dstIndex i) v)
      else none

/-- The function `buffer_copy` (bufferstruct.cpp, lines 348-421) on the two
buffers that `GET_BUFFER` has looked up, taken to be two different buffers;
the result is the destination buffer. -/
def buffer_copy (srcbuff : BinaryBuffer) (src_offset size : Nat) (dstbuff : BinaryBuffer)
    (dest_offset : Nat) : Option BinaryBuffer :=
  if src_offset ≥ srcbuff.GetSize ∧ srcbuff.type ≠ buffer_wrap then some dstbuff
  else if src_offset ≥ srcbuff.GetSize ∧ srcbuff.GetSize = 0 then none
  else
    let src_offset :=
      if src_offset ≥ srcbuff.GetSize then src_offset % srcbuff.GetSize else src_offset
    if dest_offset ≥ dstbuff.GetSize ∧ dstbuff.type ≠ buffer_wrap then some dstbuff
    else if dest_offset ≥ dstbuff.GetSize ∧ dstbuff.GetSize = 0 then none
    else
      let dest_offset :=
        if dest_offset ≥ dstbuff.GetSize then dest_offset % dstbuff.GetSize else dest_offset
      let written_bytes :=
        if srcbuff.type = buffer_wrap then size
        else subSize (min srcbuff.GetSize size) src_offset
      let written_bytes :=
        if (dstbuff.type = buffer_fixed ∨ dstbuff.type = buffer_fast) ∧
            addSize dest_offset written_bytes > dstbuff.GetSize then
          subSize (min dstbuff.GetSize written_bytes) dest_offset
        else written_bytes
      let srcIndex : Nat → Nat :=
        if srcbuff.type = buffer_wrap ∧ addSize src_offset written_bytes ≥ srcbuff.GetSize then
          fun i => (i + src_offset) % srcbuff.GetSize
        else fun i => i + src_offset
      match dstbuff.type with
      | buffer_wrap =>
        match copyElements srcIndex (fun i => (i + dest_offset) % dstbuff.GetSize)
            srcbuff.data size 0 dstbuff.data with
        | none => none
        | some d => some { dstbuff with data := d }
      | buffer_grow =>
        let dstbuff :=
          if addSize dest_offset written_bytes ≥ dstbuff.GetSize then
            dstbuff.Resize (addSize (addSize dest_offset written_bytes) 1)
          else dstbuff
        match copyElements srcIndex (fun i => i + dest_offset) srcbuff.data size 0
            dstbuff.data with
        | none => none
        | some d => some { dstbuff with data := d }
      | buffer_fixed
      | buffer_fast =>
        match copyElements srcIndex (fun i => i + dest_offset) srcbuff.data size 0
            dstbuff.data with
        | none => none
        | some d => some { dstbuff with data := d }

/-- The slots of `enigma::buffers`, an `AssetArray`: a freed slot is null. -/
abbrev Buffers := List (Option BinaryBuffer)

/-- The loop of `enigma::get_free_buffer` (bufferstruct.cpp, lines 40-44) over
the slots from index `i` on. -/
def freeSlotFrom : List (Option BinaryBuffer) → Nat → Nat
  | [], i => i
  | slot :: rest, i => if slot.isNone then i else freeSlotFrom rest (i + 1)

/-- The function `enigma::get_free_buffer` (bufferstruct.cpp, lines 39-46). -/
def get_free_buffer (buffers : Buffers) : Nat := freeSlotFrom buffers 0

/-- The function `make_new_buffer` (bufferstruct.cpp, lines 325-333): the id
returned and the slots afterwards. `buffers.add` is taken to append a slot
and return its index, `buffers.assign` to fill the slot of the given id. -/
def make_new_buffer (buffers : Buffers) (size : Nat) (type : buffer_type_t)
    (alignment : Nat) : Nat × Buffers :=
  let buffer : BinaryBuffer :=
    { data := List.replicate size (0 : Byte), position := 0, alignment := alignment,
      type := type }
  let id := get_free_buffer buffers
  if id = buffers.length then (buffers.length, buffers ++ [some buffer])
  else (id, buffers.set id (some buffer))

/-- The bound on the size of a `std::vector<std::byte>`: its `max_size()` is
at most `PTRDIFF_MAX`, which is `2 ^ 63 - 1` where `std::size_t` has 64 bits. -/
def MAX_VECTOR_SIZE : Nat := 2 ^ 63 - 1

/-! ## End of the buffer definitions -/

end enigma_user

namespace enigma.parsing

open TokenType

/-! ## Auxiliary lemmas -/

theorem readToken_remaining_le (self : AstBuilder) :
    self.readToken.remaining ≤ self.remaining := by
  unfold AstBuilder.readToken AstBuilder.remaining Lexer.ReadToken
  cases h : self.lexer.pending <;> simp [h]

theorem readToken_remaining_lt (self : AstBuilder)
    (h : self.readToken.token.type ≠ TT_ENDOFCODE) :
    self.readToken.remaining + 1 = self.remaining := by
  unfold AstBuilder.readToken AstBuilder.remaining Lexer.ReadToken at *
  cases hp : self.lexer.pending with
  | nil => simp [hp, Lexer.endToken] at h
  | cons t rest => simp [hp]

@[simp] theorem ReportError_remaining (self : AstBuilder) (t : Token) (m : String) :
    (self.ReportError t m).remaining = self.remaining := rfl

@[simp] theorem Error_remaining (self : AstBuilder) (t : Token) (m : List MessagePart) :
    (self.Error t m).remaining = self.remaining := rfl

@[simp] theorem ReportError_token (self : AstBuilder) (t : Token) (m : String) :
    (self.ReportError t m).token = self.token := rfl

@[simp] theorem Error_token (self : AstBuilder) (t : Token) (m : List MessagePart) :
    (self.Error t m).token = self.token := rfl

theorem Parsed.Progress.of_none {self self' : AstBuilder}
    (h : self'.remaining ≤ self.remaining) : Parsed.Progress self (some (none, self')) :=
  ⟨none, self', rfl, h, fun hn => absurd rfl hn⟩

theorem Parsed.Progress.of_lt {self self' : AstBuilder} (node : Option Node)
    (h : self'.remaining < self.remaining) : Parsed.Progress self (some (node, self')) :=
  ⟨node, self', rfl, Nat.le_of_lt h, fun _ => h⟩

theorem TryParseExpression_of_operand (P : Precedence) (fuel : Nat) (p : Int) (self : AstBuilder) :
    TryParseExpression P (fuel + 1) p self = TryParseOperand P fuel self := by
  rw [TryParseExpression]
  split <;> simp_all

theorem total_aux (P : Precedence) : ∀ fuel : Nat,
    (∀ self : AstBuilder, 3 * self.remaining + 1 ≤ fuel →
      Parsed.Progress self (TryParseOperand P fuel self)) ∧
    (∀ (self : AstBuilder) (p : Int), 3 * self.remaining + 2 ≤ fuel →
      Parsed.Progress self (TryParseExpression P fuel p self)) ∧
    (∀ (self : AstBuilder) (acc : List (Option Node)), 3 * self.remaining + 3 ≤ fuel →
      ∃ els self', arrayElements P fuel self acc = some (els, self') ∧
        self'.remaining ≤ self.remaining) := by
  intro fuel
  induction fuel with
  | zero =>
    refine ⟨?_, ?_, ?_⟩ <;> intros <;> omega
  | succ fuel ih =>
    obtain ⟨ihO, ihE, ihA⟩ := ih
    refine ⟨?_, ?_, ?_⟩
    · intro self hf
      have h1 := readToken_remaining_le self
      have h2 := readToken_remaining_lt self
      rw [TryParseOperand]
      simp only []
      split
      all_goals first
        | exact Parsed.Progress.of_none (by omega)
        | (rename_i heq
           have h2 := h2 (by rw [heq]; decide)
           have h3 := readToken_remaining_le self.readToken
           first
             | exact Parsed.Progress.of_lt _ (by omega)
             | exact Parsed.Progress.of_none (Nat.le_trans (readToken_remaining_le _)
                 (by simp only [ReportError_remaining, Error_remaining]; omega))
             | (obtain ⟨n1, s1, he1, hle1, _⟩ :=
                  ihE self.readToken.readToken P.kUnaryPrefix (by omega)
                rw [he1]
                cases n1 with
                | some e => exact Parsed.Progress.of_lt _ (by omega)
                | none =>
                  simp only []
                  have h4 := readToken_remaining_le
                    (s1.Error self.readToken.token
                      [MessagePart.text "Expected expression following unary operator"])
                  rw [Error_remaining] at h4
                  obtain ⟨n2, s2, he2, hle2, _⟩ := ihE
                    (s1.Error self.readToken.token
                      [MessagePart.text "Expected expression following unary operator"]).readToken
                    P.kMin (by omega)
                  rw [he2]
                  simp only []
                  apply Parsed.Progress.of_lt
                  have h5 := readToken_remaining_le s2
                  split
                  · omega
                  · rw [Error_remaining]; omega)
             | (obtain ⟨n1, s1, he1, hle1, _⟩ :=
                  ihE self.readToken.readToken P.kMin (by omega)
                rw [he1]
                simp only []
                apply Parsed.Progress.of_lt
                have h5 := readToken_remaining_le s1
                split
                · omega
                · rw [Error_remaining]; omega)
             | (obtain ⟨els, s1, he1, hle1⟩ :=
                  ihA self.readToken.readToken [] (by omega)
                rw [he1]
                simp only []
                apply Parsed.Progress.of_lt
                have h5 := readToken_remaining_le s1
                split
                · omega
                · rw [Error_remaining]; omega))
    · intro self p hf
      rw [TryParseExpression_of_operand]
      exact ihO self (by omega)
    · intro self acc hf
      rw [arrayElements]
      obtain ⟨node, s1, he, hle, hlt⟩ := ihE self P.kComma (by omega)
      rw [he]
      cases node with
      | none => exact ⟨_, _, rfl, hle⟩
      | some el =>
        have hlt := hlt (by simp)
        simp only []
        split
        · exact ⟨_, _, rfl, hle⟩
        · have h3 := readToken_remaining_le s1
          obtain ⟨els, s2, ha, hle2⟩ := ihA s1.readToken (acc ++ [some el]) (by omega)
          exact ⟨els, s2, ha, by omega⟩

/-- With fuel `3 * remaining + 3` the array loop returns. -/
theorem arrayElements_total (P : Precedence) (fuel : Nat) (self : AstBuilder)
    (acc : List (Option Node)) (hf : 3 * self.remaining + 3 ≤ fuel) :
    ∃ els self', arrayElements P fuel self acc = some (els, self') ∧
      self'.remaining ≤ self.remaining :=
  (total_aux P fuel).2.2 self acc hf

/-- A literal token at the head of the stream is returned by
`TryParseExpression` as a `Literal`; nothing after it is read. -/
theorem TryParseExpression_literal_head (P : Precedence) (fuel : Nat) (precedence : Int)
    (self : AstBuilder) (t : Token) (rest : List Token) (ht : t.isLiteral)
    (h : self.lexer.pending = t :: rest) :
    TryParseExpression P (fuel + 2) precedence self =
      some (some (Node.Literal t),
        { self with token := t, lexer := { self.lexer with pending := rest } }) := by
  rcases ht with ht | ht | ht | ht | ht | ht | ht <;>
    simp [TryParseExpression, TryParseOperand, AstBuilder.readToken, Lexer.ReadToken, h, ht]

/-- A streamed error followed by a read: the lexer and the token are those
of the plain read, and the error is the one diagnostic added. -/
theorem Error_readToken (self : AstBuilder) (t : Token) (m : List MessagePart) :
    (self.Error t m).readToken =
      { self.readToken with herr := self.herr ++ [⟨Severity.error, t, m⟩] } := rfl

/-- A mid-expression token read at operand position: the result of
`TryParseOperand` in closed form. -/
theorem TryParseOperand_mid_expression_aux (P : Precedence) (fuel : Nat) (self : AstBuilder)
    (c : MidExpressionClass) (h : self.readToken.token.type.midExpressionClass = some c) :
    TryParseOperand P (fuel + 1) self =
      some (none, { self.readToken.readToken with
        herr := self.herr ++ [⟨Severity.error, self.readToken.token,
          operandErrorMessage c self.readToken.token.content⟩] }) := by
  rw [TryParseOperand]
  simp only []
  generalize hs : self.readToken = s at h ⊢
  have hh : s.herr = self.herr := by rw [← hs]; rfl
  rw [← hh]
  cases hty : s.token.type <;> rw [hty] at h <;>
    simp [TokenType.midExpressionClass] at h <;> subst h <;> rfl

/-- The messages of two different mid-expression classes are different
strings, whatever the text of the two tokens (they differ within their first
28 characters). -/
theorem renderMessage_operandError_ne (showToken : Token → String)
    (c₁ c₂ : MidExpressionClass) (x y : String) (h : c₁ ≠ c₂) :
    renderMessage showToken (operandErrorMessage c₁ x) ≠
      renderMessage showToken (operandErrorMessage c₂ y) := by
  intro he
  have h28 := congrArg (fun s => s.data.take 28) he
  cases c₁ <;> cases c₂ <;>
    simp [operandErrorMessage, renderMessage, MessagePart.render] at h28 <;>
    exact h rfl

/-- A token kind for which `TryParseOperand` returns `nullptr` and does
nothing else (parser.cpp, lines 24-27 and 107-125). -/
theorem TryParseOperand_silent (P : Precedence) (fuel : Nat) (self : AstBuilder)
    (h : self.readToken.token.type.isTerminator = true ∨
      self.readToken.token.type.isKeyword = true) :
    TryParseOperand P (fuel + 1) self = some (none, self.readToken) := by
  rw [TryParseOperand]
  simp only []
  generalize self.readToken = s at h ⊢
  cases hty : s.token.type <;> rw [hty] at h <;>
    simp [TokenType.isTerminator, TokenType.isKeyword] at h

/-- A call of `TryParseExpression` is a call of `TryParseOperand` one level
down. -/
theorem expressionDepth_succ (P : Precedence) (fuel : Nat) (self : AstBuilder) :
    expressionDepth P (fuel + 1) self = operandDepth P fuel self := by
  rw [expressionDepth]

/-- With enough fuel the nesting of activations of `TryParseOperand` is at
most one more than the number of pending tokens. -/
theorem depth_aux (P : Precedence) : ∀ fuel : Nat,
    (∀ self : AstBuilder, 3 * self.remaining + 1 ≤ fuel →
      operandDepth P fuel self ≤ self.remaining + 1) ∧
    (∀ self : AstBuilder, 3 * self.remaining + 2 ≤ fuel →
      expressionDepth P fuel self ≤ self.remaining + 1) ∧
    (∀ self : AstBuilder, 3 * self.remaining + 3 ≤ fuel →
      elementsDepth P fuel self ≤ self.remaining + 1) := by
  intro fuel
  induction fuel with
  | zero => refine ⟨?_, ?_, ?_⟩ <;> intros <;> omega
  | succ fuel ih =>
    obtain ⟨ihO, ihE, ihL⟩ := ih
    have tot := (total_aux P fuel).2.1
    refine ⟨?_, ?_, ?_⟩
    · intro self hf
      have h1 := readToken_remaining_le self
      have h2 := readToken_remaining_lt self
      have h3 := readToken_remaining_le self.readToken
      rw [operandDepth]
      simp only []
      split
      all_goals first
        | omega
        | (rename_i heq
           have h2 := h2 (by rw [heq]; decide)
           first
             | (have e1 := ihE self.readToken.readToken (by omega)
                obtain ⟨n1, s1, he1, hle1, _⟩ :=
                  tot self.readToken.readToken P.kUnaryPrefix (by omega)
                rw [he1]
                cases n1 with
                | some e => simp only []; omega
                | none =>
                  simp only []
                  have h4 := readToken_remaining_le
                    (s1.Error self.readToken.token
                      [MessagePart.text "Expected expression following unary operator"])
                  rw [Error_remaining] at h4
                  have e2 := ihE (s1.Error self.readToken.token
                      [MessagePart.text "Expected expression following unary operator"]).readToken
                    (by omega)
                  omega)
             | (have e1 := ihE self.readToken.readToken (by omega)
                omega)
             | (have e1 := ihL self.readToken.readToken (by omega)
                omega))
    · intro self hf
      rw [expressionDepth_succ]
      exact ihO self (by omega)
    · intro self hf
      rw [elementsDepth]
      have e1 := ihE self (by omega)
      obtain ⟨node, s1, he, hle, hlt⟩ := tot self P.kComma (by omega)
      rw [he]
      cases node with
      | none => simpa using e1
      | some el =>
        have hlt := hlt (by simp)
        simp only []
        have h3 := readToken_remaining_le s1
        have e2 := ihL s1.readToken (by omega)
        split <;> omega

/-- On a stream of `2 * n` opening parentheses `TryParseOperand` nests `n + 1`
activations, returns `n` parentheticals nested around nothing and reports `n`
times that the closing parenthesis is missing. -/
theorem parentheses_aux (P : Precedence) (lp : Token) (hlp : lp.type = TT_BEGINPARENTH) :
    ∀ (n fuel : Nat) (self : AstBuilder),
      self.lexer.pending = List.replicate (2 * n) lp → 2 * n + 1 ≤ fuel →
      operandDepth P fuel self = n + 1 ∧
      TryParseOperand P fuel self =
        some (nestedParentheses n,
          { lexer := { pending := [], endPosition := self.lexer.endPosition }
            herr := self.herr ++
              List.replicate n (expectedClosingParenthesis self.lexer.endToken)
            token := self.lexer.endToken }) := by
  intro n
  induction n with
  | zero =>
    intro fuel self hp hf
    obtain ⟨fuel, rfl⟩ : ∃ k, fuel = k + 1 := ⟨fuel - 1, by omega⟩
    have hr : self.readToken =
        { lexer := { pending := [], endPosition := self.lexer.endPosition }
          herr := self.herr, token := self.lexer.endToken } := by
      simp only [Nat.mul_zero, List.replicate_zero] at hp
      simp [AstBuilder.readToken, Lexer.ReadToken, hp]
      rw [← hp]
    constructor
    · rw [operandDepth]
      simp [hr, Lexer.endToken]
    · rw [TryParseOperand]
      simp [hr, Lexer.endToken, nestedParentheses]
  | succ n ih =>
    intro fuel self hp hf
    obtain ⟨fuel, rfl⟩ : ∃ k, fuel = k + 2 := ⟨fuel - 2, by omega⟩
    have hp' : self.lexer.pending = lp :: lp :: List.replicate (2 * n) lp := by
      rw [hp, show 2 * (n + 1) = 2 * n + 1 + 1 by ring, List.replicate_succ,
        List.replicate_succ]
    have hty : self.readToken.token.type = TT_BEGINPARENTH := by
      simp [AstBuilder.readToken, Lexer.ReadToken, hp', hlp]
    have hpend : self.readToken.readToken.lexer.pending = List.replicate (2 * n) lp := by
      simp [AstBuilder.readToken, Lexer.ReadToken, hp']
    have hend : self.readToken.readToken.lexer.endPosition = self.lexer.endPosition := by
      simp [AstBuilder.readToken, Lexer.ReadToken, hp']
    have hherr : self.readToken.readToken.herr = self.herr := rfl
    obtain ⟨ihd, iht⟩ := ih fuel self.readToken.readToken hpend (by omega)
    constructor
    · rw [operandDepth]
      simp only [hty, expressionDepth_succ, ihd]
      omega
    · rw [TryParseOperand]
      simp only [hty, TryParseExpression_of_operand, iht]
      simp [Lexer.endToken, hend, hherr, nestedParentheses, AstBuilder.Error,
        expectedClosingParenthesis, List.replicate_succ']

/-- Pushing a present element keeps a vector of present elements. -/
theorem allElementsPresent_push (acc : List (Option Node)) (el : Node)
    (hacc : Node.allElementsPresent acc = true) (hel : el.operandsPresent = true) :
    Node.allElementsPresent (acc ++ [some el]) = true := by
  induction acc with
  | nil => simp [Node.allElementsPresent, Node.isPresent, hel]
  | cons a as ih =>
    simp only [List.cons_append, Node.allElementsPresent, Bool.and_eq_true] at hacc ⊢
    exact ⟨hacc.1, ih hacc.2⟩

/-- Whatever the fuel, a node that comes back from the operand parser, the
expression parser or the array loop has its operands and elements present. -/
theorem operandsPresent_aux (P : Precedence) : ∀ fuel : Nat,
    (∀ (self : AstBuilder) (node : Node) (self' : AstBuilder),
      TryParseOperand P fuel self = some (some node, self') →
        node.operandsPresent = true) ∧
    (∀ (self : AstBuilder) (p : Int) (node : Node) (self' : AstBuilder),
      TryParseExpression P fuel p self = some (some node, self') →
        node.operandsPresent = true) ∧
    (∀ (self : AstBuilder) (acc els : List (Option Node)) (self' : AstBuilder),
      Node.allElementsPresent acc = true →
      arrayElements P fuel self acc = some (els, self') →
        Node.allElementsPresent els = true) := by
  intro fuel
  induction fuel with
  | zero =>
    refine ⟨?_, ?_, ?_⟩
    · intro self node self' h; simp [TryParseOperand] at h
    · intro self p node self' h; simp [TryParseExpression] at h
    · intro self acc els self' _ h; simp [arrayElements] at h
  | succ fuel ih =>
    obtain ⟨ihO, ihE, ihA⟩ := ih
    refine ⟨?_, ?_, ?_⟩
    · intro self node self' h
      rw [TryParseOperand] at h
      simp only [] at h
      split at h
      all_goals first
        | (simp at h; done)
        | (simp only [Option.some.injEq, Prod.mk.injEq] at h
           obtain ⟨h, _⟩ := h
           subst h
           rfl)
        | (split at h
           · simp at h
           · rename_i exp s1 hr
             simp only [Option.some.injEq, Prod.mk.injEq] at h
             obtain ⟨h, _⟩ := h
             subst h
             simpa [Node.operandsPresent, Node.isPresent] using ihE _ _ _ _ hr
           · split at h
             · simp at h
             · rename_i exp s2 hr
               simp only [Option.some.injEq, Prod.mk.injEq] at h
               obtain ⟨h, _⟩ := h
               subst h
               cases exp with
               | none => rfl
               | some e => simpa [Node.operandsPresent, Node.presentOrNull] using ihE _ _ _ _ hr)
        | (split at h
           · simp at h
           · rename_i exp s2 hr
             simp only [Option.some.injEq, Prod.mk.injEq] at h
             obtain ⟨h, _⟩ := h
             subst h
             cases exp with
             | none => rfl
             | some e => simpa [Node.operandsPresent, Node.presentOrNull] using ihE _ _ _ _ hr)
        | (split at h
           · simp at h
           · rename_i els s2 hr
             simp only [Option.some.injEq, Prod.mk.injEq] at h
             obtain ⟨h, _⟩ := h
             subst h
             simpa [Node.operandsPresent] using
               ihA _ [] _ _ (by simp [Node.allElementsPresent]) hr)
    · intro self p node self' h
      rw [TryParseExpression_of_operand] at h
      exact ihO self node self' h
    · intro self acc els self' hacc h
      rw [arrayElements] at h
      cases hr : TryParseExpression P fuel P.kComma self with
      | none => simp [hr] at h
      | some r =>
        obtain ⟨node, s1⟩ := r
        cases node with
        | none =>
          simp [hr] at h
          rw [← h.1]; exact hacc
        | some el =>
          have hel := ihE self P.kComma el s1 hr
          simp only [hr] at h
          split at h
          · simp only [Option.some.injEq, Prod.mk.injEq] at h
            rw [← h.1]
            exact allElementsPresent_push acc el hacc hel
          · exact ihA _ _ _ _ (allElementsPresent_push acc el hacc hel) h

/-! ## The claims -/

/-- C1 (as the code has it): for all operand tokens `a`, `b`, `c`, parsing the
stream `a + b * c` or the stream `a - b - c` with `TryParseExpression`, at any
precedence, returns `Literal a` alone, reports no diagnostic and leaves the
four tokens after `a` unread: binary operators are not folded into the tree. -/
theorem TryParseExpression_binary_not_folded (P : Precedence) (fuel : Nat)
    (precedence : Int) (self : AstBuilder) (a o₁ b o₂ c : Token)
    (ha : a.isLiteral) (_hb : b.isLiteral) (_hc : c.isLiteral)
    (_ho : (o₁.type = TT_PLUS ∧ o₂.type = TT_STAR) ∨ (o₁.type = TT_MINUS ∧ o₂.type = TT_MINUS))
    (h : self.lexer.pending = [a, o₁, b, o₂, c]) :
    TryParseExpression P (fuel + 2) precedence self =
      some (some (Node.Literal a),
        { self with token := a, lexer := { self.lexer with pending := [o₁, b, o₂, c] } }) :=
  TryParseExpression_literal_head P fuel precedence self a [o₁, b, o₂, c] ha h

/-- C1, witness: the streams `a + b * c` read at the loosest precedence. -/
theorem TryParseExpression_binary_not_folded_witness :
    TryParseExpression Precedence.sample 2 Precedence.sample.kAll
        (AstBuilder.start [ident "a" 0, punct TT_PLUS "+" 1, ident "b" 2,
          punct TT_STAR "*" 3, ident "c" 4]) =
      some (some (Node.Literal (ident "a" 0)),
        { AstBuilder.start [ident "a" 0, punct TT_PLUS "+" 1, ident "b" 2,
            punct TT_STAR "*" 3, ident "c" 4] with
          token := ident "a" 0
          lexer := { pending := [punct TT_PLUS "+" 1, ident "b" 2, punct TT_STAR "*" 3,
              ident "c" 4], endPosition := 5 } }) :=
  TryParseExpression_binary_not_folded Precedence.sample 0 Precedence.sample.kAll
    (AstBuilder.start [ident "a" 0, punct TT_PLUS "+" 1, ident "b" 2,
      punct TT_STAR "*" 3, ident "c" 4])
    (ident "a" 0) (punct TT_PLUS "+" 1) (ident "b" 2) (punct TT_STAR "*" 3) (ident "c" 4)
    (by decide) (by decide) (by decide) (by decide) rfl

/-- C1, counterexample: on `a + b * c` and on `a - b - c` the node returned by
`TryParseExpression` at the loosest precedence is `Literal a`, which is not
the `BinaryExpression` tree nested by precedence and associativity. -/
theorem TryParseExpression_binary_counterexample :
    ((TryParseExpression Precedence.sample 9 Precedence.sample.kAll
        (AstBuilder.start [ident "a" 0, punct TT_PLUS "+" 1, ident "b" 2,
          punct TT_STAR "*" 3, ident "c" 4])).map Prod.fst
      = some (some (Node.Literal (ident "a" 0))) ∧
     some (some (Node.Literal (ident "a" 0))) ≠
      some (some (Node.BinaryExpression TT_PLUS (some (Node.Literal (ident "a" 0)))
        (some (Node.BinaryExpression TT_STAR (some (Node.Literal (ident "b" 2)))
          (some (Node.Literal (ident "c" 4)))))))) ∧
    ((TryParseExpression Precedence.sample 9 Precedence.sample.kAll
        (AstBuilder.start [ident "a" 0, punct TT_MINUS "-" 1, ident "b" 2,
          punct TT_MINUS "-" 3, ident "c" 4])).map Prod.fst
      = some (some (Node.Literal (ident "a" 0))) ∧
     some (some (Node.Literal (ident "a" 0))) ≠
      some (some (Node.BinaryExpression TT_MINUS
        (some (Node.BinaryExpression TT_MINUS (some (Node.Literal (ident "a" 0)))
          (some (Node.Literal (ident "b" 2)))))
        (some (Node.Literal (ident "c" 4)))))) :=
  ⟨⟨rfl, by simp⟩, ⟨rfl, by simp⟩⟩

/-- C2: for every identifier or literal token `t` and every minimum
precedence, `TryParseExpression` on the stream that consists of `t` alone
returns a `Literal` wrapping exactly `t`, reports no diagnostic, and leaves
the stream at its end (the next read yields the end-of-stream token). -/
theorem TryParseExpression_single_literal (P : Precedence) (fuel : Nat) (precedence : Int)
    (self : AstBuilder) (t : Token) (ht : t.isLiteral) (h : self.lexer.pending = [t]) :
    ∃ self', TryParseExpression P (fuel + 2) precedence self =
        some (some (Node.Literal t), self') ∧
      self'.herr = self.herr ∧ self'.lexer.pending = [] ∧
      self'.lexer.ReadToken.1.type = TT_ENDOFCODE :=
  ⟨_, TryParseExpression_literal_head P fuel precedence self t [] ht h, rfl, rfl, rfl⟩

/-- C2, witness: the stream made of the decimal literal `42` alone. -/
theorem TryParseExpression_single_literal_witness :
    ∃ self', TryParseExpression Precedence.sample 2 Precedence.sample.kComma
        (AstBuilder.start [punct TT_DECLITERAL "42" 0]) =
        some (some (Node.Literal (punct TT_DECLITERAL "42" 0)), self') ∧
      self'.herr = [] ∧ self'.lexer.pending = [] ∧
      self'.lexer.ReadToken.1.type = TT_ENDOFCODE :=
  TryParseExpression_single_literal Precedence.sample 0 Precedence.sample.kComma
    (AstBuilder.start [punct TT_DECLITERAL "42" 0]) (punct TT_DECLITERAL "42" 0)
    (by decide) rfl

/-- C3 (what the code does): on the stream `a )` the node returned by
`TryParseExpression` is `Literal a`, and the parser's current token afterwards
is `a` itself, not the stopping token `)`, which is still pending in the
lexer. -/
theorem TryParseExpression_token_after_literal :
    TryParseExpression Precedence.sample 2 Precedence.sample.kAll
        (AstBuilder.start [ident "a" 0, punct TT_ENDPARENTH ")" 1]) =
      some (some (Node.Literal (ident "a" 0)),
        { lexer := { pending := [punct TT_ENDPARENTH ")" 1], endPosition := 2 }
          herr := []
          token := ident "a" 0 }) ∧
    (ident "a" 0).type ≠ TT_ENDPARENTH :=
  ⟨rfl, by decide⟩

/-- C4 (what the code does): on the stream `( x`, ended by end-of-stream,
`TryParseOperand` reports the one "Expected closing parenthesis before ..."
error and returns a `Parenthetical` whose sub-expression is absent: the token
`x` is read twice over and never parsed. -/
theorem TryParseOperand_unclosed_parenthesis :
    TryParseOperand Precedence.sample 3
        (AstBuilder.start [punct TT_BEGINPARENTH "(" 0, ident "x" 1]) =
      some (some (Node.Parenthetical none),
        { lexer := { pending := [], endPosition := 2 }
          herr := [expectedClosingParenthesis (eofAt 2)]
          token := eofAt 2 }) :=
  rfl

/-- C5 (what the code does): on the well-formed stream `( x )`
`TryParseOperand` reports nothing, consumes the `)`, and returns a
`Parenthetical` whose sub-expression is absent instead of `Literal x`. -/
theorem TryParseOperand_closed_parenthesis :
    TryParseOperand Precedence.sample 3
        (AstBuilder.start [punct TT_BEGINPARENTH "(" 0, ident "x" 1,
          punct TT_ENDPARENTH ")" 2]) =
      some (some (Node.Parenthetical none),
        { lexer := { pending := [], endPosition := 3 }
          herr := []
          token := eofAt 3 }) :=
  rfl

/-- C6 (what the code does): on the stream `- x`, ended by end-of-stream,
`TryParseOperand` returns no `UnaryExpression`: it reports "Expected
expression following unary operator" and then "Expected closing parenthesis
before ...", and returns a `Parenthetical` whose sub-expression is absent. -/
theorem TryParseOperand_unary_literal :
    TryParseOperand Precedence.sample 3
        (AstBuilder.start [punct TT_MINUS "-" 0, ident "x" 1]) =
      some (some (Node.Parenthetical none),
        { lexer := { pending := [], endPosition := 2 }
          herr := [expectedOperandAfterUnary (punct TT_MINUS "-" 0),
                   expectedClosingParenthesis (eofAt 2)]
          token := eofAt 2 }) :=
  rfl

/-- C7 (what the code does): on the stream `-`, ended by end-of-stream, the
operand of the unary operator cannot be parsed; `TryParseOperand` reports
"Expected expression following unary operator", falls into the parenthesis
case, reports a second error there and returns a `Parenthetical` node, not the
no-node sentinel. -/
theorem TryParseOperand_unary_without_operand :
    TryParseOperand Precedence.sample 3 (AstBuilder.start [punct TT_MINUS "-" 0]) =
      some (some (Node.Parenthetical none),
        { lexer := { pending := [], endPosition := 1 }
          herr := [expectedOperandAfterUnary (punct TT_MINUS "-" 0),
                   expectedClosingParenthesis (eofAt 1)]
          token := eofAt 1 }) :=
  rfl

/-- C8 (what the code does): `TryParseOperand` returns an `Array` with no
element on each of the well-formed streams `[ x ]` (no diagnostic), `[ ]`
(with the "Expected closing `]` for array" error) and `[ x , y ]` (with
"Expected expression before comma" and the closing-bracket error). -/
theorem TryParseOperand_array_of_literals :
    TryParseOperand Precedence.sample 4
        (AstBuilder.start [punct TT_BEGINBRACKET "[" 0, ident "x" 1,
          punct TT_ENDBRACKET "]" 2]) =
      some (some (Node.Array []),
        { lexer := { pending := [], endPosition := 3 }
          herr := []
          token := eofAt 3 }) ∧
    TryParseOperand Precedence.sample 4
        (AstBuilder.start [punct TT_BEGINBRACKET "[" 0, punct TT_ENDBRACKET "]" 1]) =
      some (some (Node.Array []),
        { lexer := { pending := [], endPosition := 2 }
          herr := [expectedClosingBracket (eofAt 2)]
          token := eofAt 2 }) ∧
    TryParseOperand Precedence.sample 4
        (AstBuilder.start [punct TT_BEGINBRACKET "[" 0, ident "x" 1, punct TT_COMMA "," 2,
          ident "y" 3, punct TT_ENDBRACKET "]" 4]) =
      some (some (Node.Array []),
        { lexer := { pending := [punct TT_ENDBRACKET "]" 4], endPosition := 5 }
          herr := [expectedExpressionBeforeComma (punct TT_COMMA "," 2),
                   expectedClosingBracket (ident "y" 3)]
          token := ident "y" 3 }) :=
  ⟨rfl, rfl, rfl⟩

/-- C9 (what the code does): for every token stream whose first token is `[`,
`TryParseOperand` (with fuel for the stream's length) returns an `Array` node,
never the no-node sentinel. But the token that follows the `[` is read and
dropped unseen (parser.cpp, line 87, then line 22): whenever the token after
that one is `}`, `)`, `]` or end-of-stream, the `Array` is empty, and the
"Expected closing `]` for array" error is added exactly when that second token
is not `]`, whatever the first one is. So on the well-formed stream `[ ]` the
error is reported although the `]` is there. -/
theorem TryParseOperand_bracket_drops_lookahead (P : Precedence) (fuel : Nat)
    (self : AstBuilder) (bracket : Token) (rest : List Token)
    (hb : bracket.type = TT_BEGINBRACKET) (h : self.lexer.pending = bracket :: rest)
    (hf : 3 * self.remaining + 1 ≤ fuel) :
    ∃ elements self',
      TryParseOperand P fuel self = some (some (Node.Array elements), self') ∧
      ((rest.getD 1 self.lexer.endToken).type.isTerminator = true →
        elements = [] ∧
        self'.herr =
          (if (rest.getD 1 self.lexer.endToken).type = TT_ENDBRACKET then self.herr
           else self.herr ++ [expectedClosingBracket (rest.getD 1 self.lexer.endToken)])) := by
  have hty : self.readToken.token.type = TT_BEGINBRACKET := by
    simp [AstBuilder.readToken, Lexer.ReadToken, h, hb]
  have h1 := readToken_remaining_lt self (by rw [hty]; decide)
  have h2 := readToken_remaining_le self.readToken
  have hrem : 1 ≤ self.remaining := by simp [AstBuilder.remaining, h]
  obtain ⟨fuel, rfl⟩ : ∃ k, fuel = k + 4 := ⟨fuel - 4, by omega⟩
  obtain ⟨els, after, he, _⟩ :=
    arrayElements_total P (fuel + 3) self.readToken.readToken [] (by omega)
  refine ⟨els,
    (if after.token.type = TT_ENDBRACKET then after.readToken
     else after.Error after.token [MessagePart.text "Expected closing `]` for array"]),
    ?_, ?_⟩
  · rw [TryParseOperand]
    simp only [hty, he]
  · intro ht
    have htok : self.readToken.readToken.readToken.token = rest.getD 1 self.lexer.endToken := by
      rcases rest with _ | ⟨t, _ | ⟨u, rest⟩⟩ <;>
        simp [AstBuilder.readToken, Lexer.ReadToken, Lexer.endToken, h]
    have hherr : self.readToken.readToken.readToken.herr = self.herr := rfl
    have hs := TryParseOperand_silent P fuel self.readToken.readToken
      (Or.inl (by rw [htok]; exact ht))
    have he' : arrayElements P (fuel + 3) self.readToken.readToken [] =
        some ([], self.readToken.readToken.readToken) := by
      rw [arrayElements, TryParseExpression, hs]
    rw [he'] at he
    obtain ⟨rfl, rfl⟩ : [] = els ∧ self.readToken.readToken.readToken = after := by
      simpa using he
    refine ⟨rfl, ?_⟩
    rw [htok]
    by_cases hc : (rest.getD 1 self.lexer.endToken).type = TT_ENDBRACKET
    · rw [if_pos hc, if_pos hc]
      rfl
    · rw [if_neg hc, if_neg hc]
      rfl

/-- C9, witness: the well-formed stream `[ ]`; the `]` is dropped, the token
after it is end-of-stream, and the closing-bracket error is reported. -/
theorem TryParseOperand_bracket_drops_lookahead_witness :
    ∃ self',
      TryParseOperand Precedence.sample 7
        (AstBuilder.start [punct TT_BEGINBRACKET "[" 0, punct TT_ENDBRACKET "]" 1]) =
        some (some (Node.Array []), self') ∧
      self'.herr = [expectedClosingBracket (eofAt 2)] := by
  obtain ⟨elements, self', hr, hd⟩ :=
    TryParseOperand_bracket_drops_lookahead Precedence.sample 7
      (AstBuilder.start [punct TT_BEGINBRACKET "[" 0, punct TT_ENDBRACKET "]" 1])
      (punct TT_BEGINBRACKET "[" 0) [punct TT_ENDBRACKET "]" 1] rfl rfl (by decide)
  obtain ⟨rfl, hh⟩ := hd (by decide)
  exact ⟨self', hr, hh⟩

/-- C10 (what the code does): on the stream `, x` `TryParseExpression` reports
the one "Expected expression before comma" error and returns no node, but it
has read `x` as well: the lexer is at its end, and the next call of
`TryParseExpression` starts by reading the end-of-stream token, so `x` is
never parsed. -/
theorem TryParseExpression_leading_comma :
    TryParseExpression Precedence.sample 2 Precedence.sample.kAll
        (AstBuilder.start [punct TT_COMMA "," 0, ident "x" 1]) =
      some (none,
        { lexer := { pending := [], endPosition := 2 }
          herr := [expectedExpressionBeforeComma (punct TT_COMMA "," 0)]
          token := ident "x" 1 }) ∧
    TryParseExpression Precedence.sample 2 Precedence.sample.kAll
        { lexer := { pending := [], endPosition := 2 }
          herr := [expectedExpressionBeforeComma (punct TT_COMMA "," 0)]
          token := ident "x" 1 } =
      some (none,
        { lexer := { pending := [], endPosition := 2 }
          herr := [expectedExpressionBeforeComma (punct TT_COMMA "," 0)]
          token := eofAt 2 }) :=
  ⟨rfl, rfl⟩

/-- C11: a token that can only appear mid-expression (colon, comma,
assignment, member access, pointer-to-member, binary operator, ternary `?`),
read at operand position, makes `TryParseOperand` report exactly one error,
keyed to that token, and return the no-node sentinel; and for two such tokens
of different classes the two messages are different strings. -/
theorem TryParseOperand_mid_expression (P : Precedence) (fuel : Nat)
    (self₁ self₂ : AstBuilder) (c₁ c₂ : MidExpressionClass)
    (h₁ : self₁.readToken.token.type.midExpressionClass = some c₁)
    (h₂ : self₂.readToken.token.type.midExpressionClass = some c₂) :
    ∃ d₁ d₂ : Diagnostic,
      TryParseOperand P (fuel + 1) self₁ =
        some (none, { self₁.readToken.readToken with herr := self₁.herr ++ [d₁] }) ∧
      TryParseOperand P (fuel + 1) self₂ =
        some (none, { self₂.readToken.readToken with herr := self₂.herr ++ [d₂] }) ∧
      d₁.severity = Severity.error ∧ d₁.at_ = self₁.readToken.token ∧
      d₂.severity = Severity.error ∧ d₂.at_ = self₂.readToken.token ∧
      (c₁ ≠ c₂ → ∀ showToken, d₁.render showToken ≠ d₂.render showToken) :=
  ⟨_, _, TryParseOperand_mid_expression_aux P fuel self₁ c₁ h₁,
    TryParseOperand_mid_expression_aux P fuel self₂ c₂ h₂, rfl, rfl, rfl, rfl,
    fun hne showToken => renderMessage_operandError_ne showToken c₁ c₂ _ _ hne⟩

/-- C11, witness: the stream `= x` against the stream `<= x`. -/
theorem TryParseOperand_mid_expression_witness :
    ∃ d₁ d₂ : Diagnostic,
      TryParseOperand Precedence.sample (0 + 1)
          (AstBuilder.start [punct TT_ASSIGN "=" 0, ident "x" 1]) =
        some (none,
          { (AstBuilder.start [punct TT_ASSIGN "=" 0, ident "x" 1]).readToken.readToken with
            herr := (AstBuilder.start [punct TT_ASSIGN "=" 0, ident "x" 1]).herr ++ [d₁] }) ∧
      TryParseOperand Precedence.sample (0 + 1)
          (AstBuilder.start [punct TT_LESSEQUAL "<=" 0, ident "x" 1]) =
        some (none,
          { (AstBuilder.start
              [punct TT_LESSEQUAL "<=" 0, ident "x" 1]).readToken.readToken with
            herr := (AstBuilder.start
              [punct TT_LESSEQUAL "<=" 0, ident "x" 1]).herr ++ [d₂] }) ∧
      d₁.severity = Severity.error ∧
      d₁.at_ = (AstBuilder.start [punct TT_ASSIGN "=" 0, ident "x" 1]).readToken.token ∧
      d₂.severity = Severity.error ∧
      d₂.at_ = (AstBuilder.start [punct TT_LESSEQUAL "<=" 0, ident "x" 1]).readToken.token ∧
      (MidExpressionClass.assignment ≠ MidExpressionClass.binaryOperator →
        ∀ showToken, d₁.render showToken ≠ d₂.render showToken) :=
  TryParseOperand_mid_expression Precedence.sample 0
    (AstBuilder.start [punct TT_ASSIGN "=" 0, ident "x" 1])
    (AstBuilder.start [punct TT_LESSEQUAL "<=" 0, ident "x" 1])
    MidExpressionClass.assignment MidExpressionClass.binaryOperator rfl rfl

/-- C12: when the token read at operand position is `}`, `)`, `]` or
end-of-stream, `TryParseOperand` returns the no-node sentinel, reports no
diagnostic and reads nothing further: the builder afterwards is the builder
after that single read, with the terminator as its current token. -/
theorem TryParseOperand_terminator (P : Precedence) (fuel : Nat) (self : AstBuilder)
    (h : self.readToken.token.type.isTerminator = true) :
    ∃ self', TryParseOperand P (fuel + 1) self = some (none, self') ∧
      self'.herr = self.herr ∧ self'.token = self.readToken.token ∧
      self'.lexer = self.readToken.lexer :=
  ⟨self.readToken, TryParseOperand_silent P fuel self (Or.inl h), rfl, rfl, rfl⟩

/-- C12, witness: the stream `) x`; the `x` stays pending in the lexer. -/
theorem TryParseOperand_terminator_witness :
    ∃ self', TryParseOperand Precedence.sample (0 + 1)
        (AstBuilder.start [punct TT_ENDPARENTH ")" 0, ident "x" 1]) = some (none, self') ∧
      self'.herr = (AstBuilder.start [punct TT_ENDPARENTH ")" 0, ident "x" 1]).herr ∧
      self'.token =
        (AstBuilder.start [punct TT_ENDPARENTH ")" 0, ident "x" 1]).readToken.token ∧
      self'.lexer =
        (AstBuilder.start [punct TT_ENDPARENTH ")" 0, ident "x" 1]).readToken.lexer :=
  TryParseOperand_terminator Precedence.sample 0
    (AstBuilder.start [punct TT_ENDPARENTH ")" 0, ident "x" 1]) rfl

/-- C13: when the token read is the empty-statement marker `;`,
`TryParseOperand` returns an empty `CodeBlock` and reports nothing, and
`TryReadStatement` returns an empty `CodeBlock` and reports exactly one
diagnostic, a warning; neither returns the no-node sentinel nor reports an
error. -/
theorem semicolon_is_empty_CodeBlock (P : Precedence) (S : Stubs) (fuel fuel' : Nat)
    (self : AstBuilder) (h : self.readToken.token.type = TT_SEMICOLON) :
    TryParseOperand P (fuel + 1) self = some (some (Node.CodeBlock []), self.readToken) ∧
    self.readToken.herr = self.herr ∧
    TryReadStatement P S fuel' self =
      some (some (Node.CodeBlock []),
        { self.readToken.readToken with
          herr := self.herr ++ [emptyStatementWarning self.readToken.token] }) ∧
    (emptyStatementWarning self.readToken.token).severity = Severity.warning := by
  refine ⟨?_, rfl, ?_, rfl⟩
  · rw [TryParseOperand]
    simp only [h]
  · unfold TryReadStatement
    simp only [h]
    rfl

/-- C13, witness: the stream `; x`. -/
theorem semicolon_is_empty_CodeBlock_witness :
    TryParseOperand Precedence.sample (0 + 1)
        (AstBuilder.start [punct TT_SEMICOLON ";" 0, ident "x" 1]) =
      some (some (Node.CodeBlock []),
        (AstBuilder.start [punct TT_SEMICOLON ";" 0, ident "x" 1]).readToken) ∧
    (AstBuilder.start [punct TT_SEMICOLON ";" 0, ident "x" 1]).readToken.herr =
      (AstBuilder.start [punct TT_SEMICOLON ";" 0, ident "x" 1]).herr ∧
    TryReadStatement Precedence.sample
        Stubs.sample 0
        (AstBuilder.start [punct TT_SEMICOLON ";" 0, ident "x" 1]) =
      some (some (Node.CodeBlock []),
        { (AstBuilder.start [punct TT_SEMICOLON ";" 0, ident "x" 1]).readToken.readToken with
          herr := (AstBuilder.start [punct TT_SEMICOLON ";" 0, ident "x" 1]).herr ++
            [emptyStatementWarning
              (AstBuilder.start [punct TT_SEMICOLON ";" 0, ident "x" 1]).readToken.token] }) ∧
    (emptyStatementWarning
      (AstBuilder.start [punct TT_SEMICOLON ";" 0, ident "x" 1]).readToken.token).severity =
        Severity.warning :=
  semicolon_is_empty_CodeBlock Precedence.sample Stubs.sample 0 0
    (AstBuilder.start [punct TT_SEMICOLON ";" 0, ident "x" 1]) rfl

/-- C14: when the token read at operand position is a keyword or control
token (a statement keyword, a storage qualifier, a type name or a foreign
keyword), `TryParseOperand` returns the no-node sentinel and reports no
diagnostic. -/
theorem TryParseOperand_keyword (P : Precedence) (fuel : Nat) (self : AstBuilder)
    (h : self.readToken.token.type.isKeyword = true) :
    ∃ self', TryParseOperand P (fuel + 1) self = some (none, self') ∧
      self'.herr = self.herr :=
  ⟨self.readToken, TryParseOperand_silent P fuel self (Or.inr h), rfl⟩

/-- C14, witness: the stream `while x`. -/
theorem TryParseOperand_keyword_witness :
    ∃ self', TryParseOperand Precedence.sample (0 + 1)
        (AstBuilder.start [punct TT_S_WHILE "while" 0, ident "x" 1]) = some (none, self') ∧
      self'.herr = (AstBuilder.start [punct TT_S_WHILE "while" 0, ident "x" 1]).herr :=
  TryParseOperand_keyword Precedence.sample 0
    (AstBuilder.start [punct TT_S_WHILE "while" 0, ident "x" 1]) rfl

/-- C15 (what the code does): on the stream made of the single literal `42`
`TryReadStatement` returns no node, because it reads `42` itself and the
expression parser it delegates to starts by reading the next token, whereas
`TryParseExpression` at the loosest precedence on that same stream returns
`Literal 42`. -/
theorem TryReadStatement_single_literal (S : Stubs) :
    TryReadStatement Precedence.sample S 2 (AstBuilder.start [punct TT_DECLITERAL "42" 0]) =
      some (none,
        { lexer := { pending := [], endPosition := 1 }
          herr := []
          token := eofAt 1 }) ∧
    TryParseExpression Precedence.sample 2 Precedence.sample.kAll
        (AstBuilder.start [punct TT_DECLITERAL "42" 0]) =
      some (some (Node.Literal (punct TT_DECLITERAL "42" 0)),
        { lexer := { pending := [], endPosition := 1 }
          herr := []
          token := punct TT_DECLITERAL "42" 0 }) :=
  ⟨rfl, rfl⟩

/-- C16: when the token read at statement position can never start a
statement (a stray `,`, an unmatched `)` or `]`, an orphaned `then` or `else`,
a foreign keyword, a lexer-error token or a leftover preprocessing marker),
`TryReadStatement` reports exactly one diagnostic, an error keyed to that
token, reads exactly one further token, and returns the no-node sentinel. -/
theorem TryReadStatement_stray_token (P : Precedence) (S : Stubs) (fuel : Nat)
    (self : AstBuilder) (h : self.readToken.token.type.neverStartsStatement = true) :
    ∃ d : Diagnostic,
      TryReadStatement P S fuel self =
        some (none, { self.readToken.readToken with herr := self.herr ++ [d] }) ∧
      d.severity = Severity.error ∧ d.at_ = self.readToken.token := by
  refine ⟨⟨Severity.error, self.readToken.token,
    [MessagePart.text (strayTokenMessage self.readToken.token.type)]⟩, ?_, rfl, rfl⟩
  unfold TryReadStatement
  simp only []
  generalize hs : self.readToken = s at h ⊢
  have hh : s.herr = self.herr := by rw [← hs]; rfl
  rw [← hh]
  cases hty : s.token.type <;> rw [hty] at h <;>
    simp [TokenType.neverStartsStatement] at h <;> rfl

/-- C16, witness: the stream `else x`. -/
theorem TryReadStatement_stray_token_witness :
    ∃ d : Diagnostic,
      TryReadStatement Precedence.sample Stubs.sample 0
          (AstBuilder.start [punct TT_S_ELSE "else" 0, ident "x" 1]) =
        some (none,
          { (AstBuilder.start [punct TT_S_ELSE "else" 0, ident "x" 1]).readToken.readToken with
            herr := (AstBuilder.start [punct TT_S_ELSE "else" 0, ident "x" 1]).herr ++ [d] }) ∧
      d.severity = Severity.error ∧
      d.at_ = (AstBuilder.start [punct TT_S_ELSE "else" 0, ident "x" 1]).readToken.token :=
  TryReadStatement_stray_token Precedence.sample Stubs.sample 0
    (AstBuilder.start [punct TT_S_ELSE "else" 0, ident "x" 1]) rfl

/-- C17: when the token read at statement position is `}` or end-of-stream,
`TryReadStatement` returns the no-node sentinel, reports no diagnostic and
reads no further token: the builder afterwards is the builder after that
single read, with the terminator as its current token. -/
theorem TryReadStatement_terminator (P : Precedence) (S : Stubs) (fuel : Nat)
    (self : AstBuilder)
    (h : self.readToken.token.type = TT_ENDBRACE ∨
      self.readToken.token.type = TT_ENDOFCODE) :
    ∃ self', TryReadStatement P S fuel self = some (none, self') ∧
      self'.herr = self.herr ∧ self'.token = self.readToken.token ∧
      self'.lexer = self.readToken.lexer := by
  refine ⟨self.readToken, ?_, rfl, rfl, rfl⟩
  unfold TryReadStatement
  rcases h with h | h <;> simp only [h]

/-- C17, witness: the stream `} x`; the `x` stays pending in the lexer. -/
theorem TryReadStatement_terminator_witness :
    ∃ self', TryReadStatement Precedence.sample Stubs.sample 0
        (AstBuilder.start [punct TT_ENDBRACE "\x7d" 0, ident "x" 1]) = some (none, self') ∧
      self'.herr = (AstBuilder.start [punct TT_ENDBRACE "\x7d" 0, ident "x" 1]).herr ∧
      self'.token =
        (AstBuilder.start [punct TT_ENDBRACE "\x7d" 0, ident "x" 1]).readToken.token ∧
      self'.lexer =
        (AstBuilder.start [punct TT_ENDBRACE "\x7d" 0, ident "x" 1]).readToken.lexer :=
  TryReadStatement_terminator Precedence.sample Stubs.sample 0
    (AstBuilder.start [punct TT_ENDBRACE "\x7d" 0, ident "x" 1]) (Or.inl rfl)

/-- C18 (as the code has it): for every token stream that starts with `{`, in
particular `{ stmt1; stmt2` ended by end-of-stream, `TryReadStatement` reports
exactly one diagnostic, "Expected closing brace", and returns the pointer that
`ParseCodeBlock` hands back; `ParseCodeBlock` has an empty body, so no token
after the `{` is read and no block is built from the statements. -/
theorem TryReadStatement_begin_brace (P : Precedence) (S : Stubs) (fuel : Nat)
    (self : AstBuilder) (h : self.readToken.token.type = TT_BEGINBRACE) :
    TryReadStatement P S fuel self =
      some (S.ParseCodeBlock,
        { self.readToken with
          herr := self.herr ++ [expectedClosingBrace self.readToken.token] }) := by
  unfold TryReadStatement
  simp only [h, ParseCodeBlock]
  simp [h, AstBuilder.ReportError, expectedClosingBrace]
  rfl

/-- C18, witness: the stream `{ a ; b`. -/
theorem TryReadStatement_begin_brace_witness :
    TryReadStatement Precedence.sample Stubs.sample 0
        (AstBuilder.start [punct TT_BEGINBRACE "\x7b" 0, ident "a" 1,
          punct TT_SEMICOLON ";" 2, ident "b" 3]) =
      some (Stubs.sample.ParseCodeBlock,
        { (AstBuilder.start [punct TT_BEGINBRACE "\x7b" 0, ident "a" 1,
            punct TT_SEMICOLON ";" 2, ident "b" 3]).readToken with
          herr := (AstBuilder.start [punct TT_BEGINBRACE "\x7b" 0, ident "a" 1,
              punct TT_SEMICOLON ";" 2, ident "b" 3]).herr ++
            [expectedClosingBrace
              (AstBuilder.start [punct TT_BEGINBRACE "\x7b" 0, ident "a" 1,
                punct TT_SEMICOLON ";" 2, ident "b" 3]).readToken.token] }) :=
  TryReadStatement_begin_brace Precedence.sample Stubs.sample 0
    (AstBuilder.start [punct TT_BEGINBRACE "\x7b" 0, ident "a" 1,
      punct TT_SEMICOLON ";" 2, ident "b" 3]) rfl

/-- C18, counterexample: on `{ a ; b`, whatever `ParseCodeBlock` hands back,
`TryReadStatement` leaves `a ; b` unread in the lexer; and no value handed
back by `ParseCodeBlock` makes the result the block of both statements on
`{ a ; b` and on `{ c ; d` alike. -/
theorem TryReadStatement_unclosed_block_counterexample :
    (∀ S : Stubs,
      TryReadStatement Precedence.sample S 9
          (AstBuilder.start [punct TT_BEGINBRACE "\x7b" 0, ident "a" 1,
            punct TT_SEMICOLON ";" 2, ident "b" 3]) =
        some (S.ParseCodeBlock,
          { lexer := { pending := [ident "a" 1, punct TT_SEMICOLON ";" 2, ident "b" 3],
                       endPosition := 4 }
            herr := [expectedClosingBrace (punct TT_BEGINBRACE "\x7b" 0)]
            token := punct TT_BEGINBRACE "\x7b" 0 })) ∧
    ¬ ∃ S : Stubs,
      (TryReadStatement Precedence.sample S 9
          (AstBuilder.start [punct TT_BEGINBRACE "\x7b" 0, ident "a" 1,
            punct TT_SEMICOLON ";" 2, ident "b" 3])).map Prod.fst =
        some (some (Node.CodeBlock [Node.Literal (ident "a" 1), Node.Literal (ident "b" 3)])) ∧
      (TryReadStatement Precedence.sample S 9
          (AstBuilder.start [punct TT_BEGINBRACE "\x7b" 0, ident "c" 1,
            punct TT_SEMICOLON ";" 2, ident "d" 3])).map Prod.fst =
        some (some (Node.CodeBlock [Node.Literal (ident "c" 1), Node.Literal (ident "d" 3)])) := by
  refine ⟨fun S => rfl, ?_⟩
  rintro ⟨S, h₁, h₂⟩
  have e₁ : S.ParseCodeBlock =
      some (Node.CodeBlock [Node.Literal (ident "a" 1), Node.Literal (ident "b" 3)]) := by
    simpa [TryReadStatement, AstBuilder.readToken, Lexer.ReadToken, AstBuilder.start,
      punct, ParseCodeBlock] using h₁
  have e₂ : S.ParseCodeBlock =
      some (Node.CodeBlock [Node.Literal (ident "c" 1), Node.Literal (ident "d" 3)]) := by
    simpa [TryReadStatement, AstBuilder.readToken, Lexer.ReadToken, AstBuilder.start,
      punct, ParseCodeBlock] using h₂
  rw [e₁] at e₂
  simp [ident] at e₂

/-- C19 (what the code does): called after the keyword on `if ( a ) & ( b ) x`
or on `if ( a ) * ( b ) x`, `ReadConditionalStatement` emits no diagnostic at
all, not one ambiguity warning, and it hands back the same pointer in both
cases: its body is empty and the parser holds no dialect. -/
theorem ReadConditionalStatement_no_warning (S : Stubs) :
    (ReadConditionalStatement S
        (AstBuilder.start (punct TT_S_IF "if" 0 ::
          conditionStream (punct TT_AMPERSAND "&" 4))).readToken).2.herr = [] ∧
    (ReadConditionalStatement S
        (AstBuilder.start (punct TT_S_IF "if" 0 ::
          conditionStream (punct TT_STAR "*" 4))).readToken).2.herr = [] ∧
    (ReadConditionalStatement S
        (AstBuilder.start (punct TT_S_IF "if" 0 ::
          conditionStream (punct TT_AMPERSAND "&" 4))).readToken).1 =
      (ReadConditionalStatement S
        (AstBuilder.start (punct TT_S_IF "if" 0 ::
          conditionStream (punct TT_STAR "*" 4))).readToken).1 :=
  ⟨rfl, rfl, rfl⟩

/-- C20 (what the code does): called after the keyword on `if ( a ) & ( b ) x`
or on `if ( a ) * ( b ) x`, `ReadConditionalStatement` takes no header: the
first parenthesized group `( a )` is still unread in the lexer afterwards, so
the tokens left are not the ones that begin the body. -/
theorem ReadConditionalStatement_reads_nothing (S : Stubs) :
    (ReadConditionalStatement S
        (AstBuilder.start (punct TT_S_IF "if" 0 ::
          conditionStream (punct TT_AMPERSAND "&" 4))).readToken).2.lexer.pending =
      [punct TT_BEGINPARENTH "(" 1, ident "a" 2, punct TT_ENDPARENTH ")" 3,
       punct TT_AMPERSAND "&" 4,
       punct TT_BEGINPARENTH "(" 5, ident "b" 6, punct TT_ENDPARENTH ")" 7, ident "x" 8] ∧
    (ReadConditionalStatement S
        (AstBuilder.start (punct TT_S_IF "if" 0 ::
          conditionStream (punct TT_STAR "*" 4))).readToken).2.lexer.pending =
      [punct TT_BEGINPARENTH "(" 1, ident "a" 2, punct TT_ENDPARENTH ")" 3,
       punct TT_STAR "*" 4,
       punct TT_BEGINPARENTH "(" 5, ident "b" 6, punct TT_ENDPARENTH ")" 7, ident "x" 8] ∧
    (ReadConditionalStatement S
        (AstBuilder.start (punct TT_S_IF "if" 0 ::
          conditionStream (punct TT_STAR "*" 4))).readToken).2.token = punct TT_S_IF "if" 0 :=
  ⟨rfl, rfl, rfl⟩

/-- C21 (as the code has it): the parser imposes no maximum nesting depth and
has no "nesting too deep" diagnostic. For every `n`, on the stream of `2 * n`
opening parentheses `TryParseOperand` nests `n + 1` activations, returns `n`
parentheticals nested around nothing, and the diagnostics it reports are `n`
times "Expected closing parenthesis before ...", nothing else. -/
theorem TryParseOperand_nesting_unbounded (P : Precedence) (n k : Nat) :
    operandDepth P (2 * n + 1 + k) (AstBuilder.start (List.replicate (2 * n) lparen)) =
      n + 1 ∧
    TryParseOperand P (2 * n + 1 + k) (AstBuilder.start (List.replicate (2 * n) lparen)) =
      some (nestedParentheses n,
        { lexer := { pending := [], endPosition := (List.replicate (2 * n) lparen).length }
          herr := List.replicate n
            (expectedClosingParenthesis (eofAt (List.replicate (2 * n) lparen).length))
          token := eofAt (List.replicate (2 * n) lparen).length }) := by
  have h := parentheses_aux P lparen rfl n (2 * n + 1 + k)
    (AstBuilder.start (List.replicate (2 * n) lparen)) rfl (by omega)
  simpa [AstBuilder.start, Lexer.endToken, eofAt] using h

/-- C21, counterexample: no bound `D` limits the nesting of activations of
`TryParseOperand` over all inputs; and on the stream of six opening
parentheses the parser goes four activations deep and reports three errors,
each "Expected closing parenthesis before ...". -/
theorem nesting_depth_counterexample :
    (¬ ∃ D : Nat, ∀ (toks : List Token) (fuel : Nat),
      operandDepth Precedence.sample fuel (AstBuilder.start toks) ≤ D) ∧
    operandDepth Precedence.sample 7 (AstBuilder.start (List.replicate 6 lparen)) = 4 ∧
    TryParseOperand Precedence.sample 7 (AstBuilder.start (List.replicate 6 lparen)) =
      some (nestedParentheses 3,
        { lexer := { pending := [], endPosition := 6 }
          herr := [expectedClosingParenthesis (eofAt 6), expectedClosingParenthesis (eofAt 6),
                   expectedClosingParenthesis (eofAt 6)]
          token := eofAt 6 }) := by
  refine ⟨?_, rfl, rfl⟩
  rintro ⟨D, hD⟩
  have h := hD (List.replicate (2 * D) lparen) (2 * D + 1)
  have e := (parentheses_aux Precedence.sample lparen rfl D (2 * D + 1)
    (AstBuilder.start (List.replicate (2 * D) lparen)) rfl (by omega)).1
  omega

/-- C22: for every finite token stream (tokens other than end-of-stream, after
which the lexer returns end-of-stream forever) and every minimum precedence,
`TryParseExpression` returns once the fuel is three times the length of the
stream plus two, and the number of nested recursive calls of `TryParseOperand`
(the activations below the outermost one) is at most the number of tokens of
the stream that are not end-of-stream. -/
theorem TryParseExpression_terminates (P : Precedence) (precedence : Int) (fuel : Nat)
    (self : AstBuilder) (hwf : ∀ t ∈ self.lexer.pending, t.type ≠ TT_ENDOFCODE)
    (hf : 3 * self.remaining + 2 ≤ fuel) :
    (∃ node self', TryParseExpression P fuel precedence self = some (node, self')) ∧
    expressionDepth P fuel self - 1 ≤
      (self.lexer.pending.filter (fun t => decide (t.type ≠ TT_ENDOFCODE))).length := by
  constructor
  · obtain ⟨node, self', h, _⟩ := (total_aux P fuel).2.1 self precedence hf
    exact ⟨node, self', h⟩
  · have hfilter : self.lexer.pending.filter (fun t => decide (t.type ≠ TT_ENDOFCODE)) =
        self.lexer.pending := by
      rw [List.filter_eq_self]
      intro t ht
      simpa using hwf t ht
    have hd := (depth_aux P fuel).2.1 self hf
    rw [hfilter]
    unfold AstBuilder.remaining at hd
    omega

/-- C22, witness: the stream `- ( [ x` of four tokens, with fuel 14; the
recursion goes two calls below the outermost one. -/
theorem TryParseExpression_terminates_witness :
    (∃ node self', TryParseExpression Precedence.sample 14 Precedence.sample.kAll
        (AstBuilder.start [punct TT_MINUS "-" 0, lparen, punct TT_BEGINBRACKET "[" 2,
          ident "x" 3]) = some (node, self')) ∧
    expressionDepth Precedence.sample 14
        (AstBuilder.start [punct TT_MINUS "-" 0, lparen, punct TT_BEGINBRACKET "[" 2,
          ident "x" 3]) - 1 ≤
      ((AstBuilder.start [punct TT_MINUS "-" 0, lparen, punct TT_BEGINBRACKET "[" 2,
          ident "x" 3]).lexer.pending.filter
        (fun t => decide (t.type ≠ TT_ENDOFCODE))).length :=
  TryParseExpression_terminates Precedence.sample Precedence.sample.kAll 14
    (AstBuilder.start [punct TT_MINUS "-" 0, lparen, punct TT_BEGINBRACKET "[" 2,
      ident "x" 3])
    (by decide) (by decide)

/-- C23 (what the code does): the dispatcher hands a `with` keyword to
`ParseWithStatement`, and the result type that parser declares is
`AST::CaseStatement`, the result type of `ParseCaseStatement`, whereas every
other statement parser declares the node type of its own construct. -/
theorem ParseWithStatement_result_type (P : Precedence) (S : Stubs) (fuel : Nat) :
    TryReadStatement P S fuel (AstBuilder.start [punct TT_S_WITH "with" 0, lparen]) =
      some (StatementParser.ParseWithStatement.call S
        (AstBuilder.start [punct TT_S_WITH "with" 0, lparen]).readToken) ∧
    StatementParser.ParseWithStatement.resultType = ResultType.CaseStatement ∧
    StatementParser.ParseCaseStatement.resultType = ResultType.CaseStatement ∧
    StatementParser.ParseIfStatement.resultType = ResultType.IfStatement ∧
    StatementParser.ParseSwitchStatement.resultType = ResultType.SwitchStatement :=
  ⟨rfl, rfl, rfl, rfl, rfl⟩

/-- C24 (what the code does): when the token read at statement position is a
type name, `local` or `global`, `TryReadStatement` returns what
`ParseReturnStatement` hands back, exactly as for the `return` keyword. -/
theorem TryReadStatement_type_name_as_return (P : Precedence) (S : Stubs) (fuel : Nat) :
    TryReadStatement P S fuel (AstBuilder.start [punct TT_TYPE_NAME "int" 0, ident "x" 1]) =
      some (ParseReturnStatement S
        (AstBuilder.start [punct TT_TYPE_NAME "int" 0, ident "x" 1]).readToken) ∧
    TryReadStatement P S fuel (AstBuilder.start [punct TT_LOCAL "local" 0, ident "x" 1]) =
      some (ParseReturnStatement S
        (AstBuilder.start [punct TT_LOCAL "local" 0, ident "x" 1]).readToken) ∧
    TryReadStatement P S fuel (AstBuilder.start [punct TT_GLOBAL "global" 0, ident "x" 1]) =
      some (ParseReturnStatement S
        (AstBuilder.start [punct TT_GLOBAL "global" 0, ident "x" 1]).readToken) ∧
    TryReadStatement P S fuel (AstBuilder.start [punct TT_RETURN "return" 0, ident "x" 1]) =
      some (ParseReturnStatement S
        (AstBuilder.start [punct TT_RETURN "return" 0, ident "x" 1]).readToken) :=
  ⟨rfl, rfl, rfl, rfl⟩

/-- C25 (what the code does): on the stream `( )` and on the stream `(`
followed directly by end-of-stream, `TryParseOperand` returns a
`Parenthetical` whose sub-expression is null. -/
theorem TryParseOperand_empty_parenthetical :
    TryParseOperand Precedence.sample 3
        (AstBuilder.start [lparen, punct TT_ENDPARENTH ")" 1]) =
      some (some (Node.Parenthetical none),
        { lexer := { pending := [], endPosition := 2 }
          herr := [expectedClosingParenthesis (eofAt 2)]
          token := eofAt 2 }) ∧
    TryParseOperand Precedence.sample 3 (AstBuilder.start [lparen]) =
      some (some (Node.Parenthetical none),
        { lexer := { pending := [], endPosition := 1 }
          herr := [expectedClosingParenthesis (eofAt 1)]
          token := eofAt 1 }) :=
  ⟨rfl, rfl⟩

/-- C28: for every token stream, `TryParseOperand` (with fuel for the
stream's length) returns, and in the tree it returns every `UnaryExpression`
has a present operand and every element of every `Array` is present, at every
depth. -/
theorem TryParseOperand_operands_present (P : Precedence) (fuel : Nat) (self : AstBuilder)
    (hf : 3 * self.remaining + 1 ≤ fuel) :
    ∃ result self', TryParseOperand P fuel self = some (result, self') ∧
      ∀ node, result = some node → node.operandsPresent = true := by
  obtain ⟨result, self', h, _⟩ := (total_aux P fuel).1 self hf
  refine ⟨result, self', h, ?_⟩
  intro node hn
  subst hn
  exact (operandsPresent_aux P fuel).1 self node self' h

/-- C28, witness: the stream `[ w - x y , ; ]`, which yields an array whose
one element is a unary expression on `Literal y`. -/
theorem TryParseOperand_operands_present_witness :
    ∃ result self', TryParseOperand Precedence.sample 25
        (AstBuilder.start [punct TT_BEGINBRACKET "[" 0, ident "w" 1, punct TT_MINUS "-" 2,
          ident "x" 3, ident "y" 4, punct TT_COMMA "," 5, punct TT_SEMICOLON ";" 6,
          punct TT_ENDBRACKET "]" 7]) = some (result, self') ∧
      ∀ node, result = some node → node.operandsPresent = true :=
  TryParseOperand_operands_present Precedence.sample 25
    (AstBuilder.start [punct TT_BEGINBRACKET "[" 0, ident "w" 1, punct TT_MINUS "-" 2,
      ident "x" 3, ident "y" 4, punct TT_COMMA "," 5, punct TT_SEMICOLON ";" 6,
      punct TT_ENDBRACKET "]" 7]) (by decide)

end enigma.parsing

namespace enigma_user

open buffer_type_t buffer_data_t

/-! ## Auxiliary lemmas on the buffers -/

/-- The value of `BYTE(x)`. -/
theorem BYTE_val (x : Nat) : (BYTE x).val = x % 256 := rfl

/-- Masking with `0xff` is the remainder modulo 256. -/
theorem and_0xff (x : Nat) : x &&& 0xff = x % 256 :=
  Nat.and_pow_two_sub_one_eq_mod x 8

/-- Shifting left by 8 and or-ing a byte in is multiplying by 256 and adding. -/
theorem shl_or_byte (v b : Nat) (hb : b < 256) : (v <<< 8) ||| b = v * 256 + b := by
  rw [Nat.shiftLeft_eq, Nat.mul_comm]
  exact (Nat.mul_add_lt_is_or (show b < 2 ^ 8 from hb) v).symm

/-- One byte read back as an unsigned integer of 8 bits. -/
theorem readUnsigned_one (a : Nat) (ha : a < 2 ^ 8) : readUnsigned 8 [BYTE a] = a := by
  simp only [readUnsigned, List.foldl, BYTE_val]
  rw [shl_or_byte _ _ (Nat.mod_lt _ (by decide))]
  omega

/-- Two bytes, most significant first, read back as an unsigned integer. -/
theorem readUnsigned_two (a : Nat) (ha : a < 2 ^ 16) :
    readUnsigned 16 [BYTE ((a >>> 8) &&& 0xff), BYTE (a &&& 0xff)] = a := by
  simp only [readUnsigned, List.foldl, BYTE_val, and_0xff, Nat.shiftRight_eq_div_pow]
  rw [shl_or_byte _ _ (Nat.mod_lt _ (by decide)), shl_or_byte _ _ (Nat.mod_lt _ (by decide))]
  omega

/-- Four bytes, most significant first, read back as an unsigned integer. -/
theorem readUnsigned_four (a : Nat) (ha : a < 2 ^ 32) :
    readUnsigned 32 [BYTE ((a >>> 24) &&& 0xff), BYTE ((a >>> 16) &&& 0xff),
      BYTE ((a >>> 8) &&& 0xff), BYTE (a &&& 0xff)] = a := by
  simp only [readUnsigned, List.foldl, BYTE_val, and_0xff, Nat.shiftRight_eq_div_pow]
  rw [shl_or_byte _ _ (Nat.mod_lt _ (by decide)), shl_or_byte _ _ (Nat.mod_lt _ (by decide)),
    shl_or_byte _ _ (Nat.mod_lt _ (by decide)), shl_or_byte _ _ (Nat.mod_lt _ (by decide))]
  omega

/-- The integer part of an integral `double`. -/
theorem truncate_intCast (v : Int) : truncate (v : ℚ) = v := by
  simp [truncate]

/-- The integer `as_int` of an integral `double` within the union of the
signed and the unsigned range of 8 bits. -/
theorem asUnsigned_8 (v : Int) (h : -128 ≤ v ∧ v ≤ 255) :
    asUnsigned 8 (v : ℚ) = (v % 256).toNat := by
  unfold asUnsigned
  rw [truncate_intCast]
  split
  · rfl
  · rename_i hc
    have hv : v ≤ 127 := by
      by_contra hlt
      exact hc (by exact_mod_cast (show (2 ^ (8 - 1) - 1 : Int) < v by norm_num; omega))
    unfold toUnsigned toSigned
    norm_num
    omega

/-- The integer `as_int` of an integral `double` within the union of the
signed and the unsigned range of 16 bits. -/
theorem asUnsigned_16 (v : Int) (h : -32768 ≤ v ∧ v ≤ 65535) :
    asUnsigned 16 (v : ℚ) = (v % 65536).toNat := by
  unfold asUnsigned
  rw [truncate_intCast]
  split
  · rfl
  · rename_i hc
    have hv : v ≤ 32767 := by
      by_contra hlt
      exact hc (by exact_mod_cast (show (2 ^ (16 - 1) - 1 : Int) < v by norm_num; omega))
    unfold toUnsigned toSigned
    norm_num
    omega

/-- The integer `as_int` of an integral `double` within the union of the
signed and the unsigned range of 32 bits. -/
theorem asUnsigned_32 (v : Int) (h : -2147483648 ≤ v ∧ v ≤ 4294967295) :
    asUnsigned 32 (v : ℚ) = (v % 4294967296).toNat := by
  unfold asUnsigned
  rw [truncate_intCast]
  split
  · rfl
  · rename_i hc
    have hv : v ≤ 2147483647 := by
      by_contra hlt
      exact hc (by exact_mod_cast (show (2 ^ (32 - 1) - 1 : Int) < v by norm_num; omega))
    unfold toUnsigned toSigned
    norm_num
    omega

/-- An unsigned value read back as a number is the integer it came from. -/
theorem real_toNat (v m : Int) (h0 : 0 ≤ v) (hm : v < m) :
    variant.real (((v % m).toNat : Nat) : ℚ) = variant.real (v : ℚ) := by
  have e : (v % m).toNat = v.toNat := by
    rw [Int.emod_eq_of_lt h0 hm]
  rw [e]
  congr 1
  exact_mod_cast Int.toNat_of_nonneg h0

/-- A signed value of 8 bits read back from its unsigned image. -/
theorem toSigned_8 (v : Int) (h : -128 ≤ v ∧ v ≤ 127) :
    toSigned 8 (((v % 256).toNat : Nat) : Int) = v := by
  unfold toSigned
  norm_num
  omega

/-- A signed value of 16 bits read back from its unsigned image. -/
theorem toSigned_16 (v : Int) (h : -32768 ≤ v ∧ v ≤ 32767) :
    toSigned 16 (((v % 65536).toNat : Nat) : Int) = v := by
  unfold toSigned
  norm_num
  omega

/-- A signed value of 32 bits read back from its unsigned image. -/
theorem toSigned_32 (v : Int) (h : -2147483648 ≤ v ∧ v ≤ 2147483647) :
    toSigned 32 (((v % 4294967296).toNat : Nat) : Int) = v := by
  unfold toSigned
  norm_num
  omega

/-- What a copy that stays inside the destination does: the length is kept,
the indices from `offset` on hold the source, every other index is as it was. -/
theorem copyInto_spec (dest : List Byte) (offset : Nat) (src : List Byte)
    (h : offset + src.length ≤ dest.length) :
    ∃ d, copyInto dest offset src = some d ∧ d.length = dest.length ∧
      ∀ j, d[j]? = if offset ≤ j ∧ j < offset + src.length then src[j - offset]? else dest[j]? := by
  unfold copyInto
  by_cases h0 : src.length = 0
  · refine ⟨dest, by simp [h0], rfl, ?_⟩
    intro j
    have : ¬ (offset ≤ j ∧ j < offset + src.length) := by omega
    simp [this]
  · refine ⟨dest.take offset ++ src ++ dest.drop (offset + src.length),
      by simp [h0, h], ?_, ?_⟩
    · simp; omega
    · intro j
      by_cases h1 : j < offset
      · have : ¬ (offset ≤ j ∧ j < offset + src.length) := by omega
        simp only [this, ↓reduceIte]
        rw [List.append_assoc, List.getElem?_append_left (by simp; omega)]
        rw [List.getElem?_take]
        simp [h1]
      · by_cases h2 : j < offset + src.length
        · have : offset ≤ j ∧ j < offset + src.length := by omega
          simp only [this, and_self, ↓reduceIte]
          rw [List.append_assoc, List.getElem?_append_right (by simp; omega)]
          rw [List.getElem?_append_left (by simp; omega)]
          congr 1
          simp
          omega
        · have : ¬ (offset ≤ j ∧ j < offset + src.length) := by omega
          simp only [this, ↓reduceIte]
          rw [List.getElem?_append_right (by simp; omega)]
          rw [List.getElem?_drop]
          congr 1
          simp
          omega

/-- A sum of sizes below `2 ^ 64` does not wrap. -/
theorem addSize_eq (a b : Nat) (h : a + b < 2 ^ 64) : addSize a b = a + b := by
  unfold addSize SIZE_RANGE
  exact Nat.mod_eq_of_lt h

/-- A difference of sizes that does not go below zero does not wrap. -/
theorem subSize_eq (a b : Nat) (hb : b ≤ a) (ha : a < 2 ^ 64) : subSize a b = a - b := by
  unfold subSize SIZE_RANGE
  rw [Nat.mod_eq_of_lt (by omega : b < 2 ^ 64)]
  omega

/-- The index `(offset + i) mod n` of a wrapping write, from the offset
reduced modulo `n`. -/
theorem wrap_index (offset i n : Nat) (hi : i < n) :
    (offset + i) % n = if offset % n + i < n then offset % n + i else offset % n + i - n := by
  have ho : offset % n < n := Nat.mod_lt _ (by omega)
  rw [Nat.add_mod, Nat.mod_eq_of_lt hi]
  split
  · rename_i h
    exact Nat.mod_eq_of_lt h
  · rename_i h
    rw [Nat.mod_eq_sub_mod (by omega)]
    exact Nat.mod_eq_of_lt (by omega)

/-- On a buffer that does not wrap, the string loop of `buffer_peek` returns
the bytes from the position up to the first zero byte or the buffer's end. -/
theorem peekString_no_wrap (binbuff : BinaryBuffer) (hw : binbuff.type ≠ buffer_wrap) :
    ∀ (fuel pos : Nat) (acc : List Byte), binbuff.data.length - pos < fuel →
      peekString binbuff fuel pos acc =
        some (acc ++ (binbuff.data.drop pos).takeWhile (fun b => decide (b ≠ 0))) := by
  intro fuel
  induction fuel with
  | zero => intro pos acc h; omega
  | succ fuel ih =>
    intro pos acc h
    rw [peekString]
    unfold BinaryBuffer.GetSize
    by_cases hp : pos < binbuff.data.length
    · have hd : binbuff.data.drop pos = binbuff.data[pos] :: binbuff.data.drop (pos + 1) :=
        List.drop_eq_getElem_cons hp
      have hg : binbuff.data.getD pos 0 = binbuff.data[pos] := by
        simp [List.getD, List.getElem?_eq_getElem hp]
      rw [hd, hg]
      by_cases hz : binbuff.data[pos] ≠ 0
      · rw [if_pos ⟨hp, hz⟩]
        simp only [hw, ↓reduceIte]
        rw [ih (pos + 1) _ (by omega), List.takeWhile_cons, if_pos (by simpa using hz),
          List.append_assoc]
        rfl
      · rw [if_neg (by tauto), List.takeWhile_cons, if_neg (by simpa using hz),
          List.append_nil]
    · rw [if_neg (by tauto)]
      simp [List.drop_of_length_le (by omega : binbuff.data.length ≤ pos)]

/-- On the wrapping buffer `[1, 2]`, which holds no zero byte, the string loop
of `buffer_peek` does not end: it runs out of every fuel. -/
theorem peekString_wrap_runs_on :
    ∀ (fuel pos : Nat) (acc : List Byte), pos < 2 →
      peekString ⟨[1, 2], 0, 1, buffer_wrap⟩ fuel pos acc = none := by
  intro fuel
  induction fuel with
  | zero => intro pos acc _; rfl
  | succ fuel ih =>
    intro pos acc hp
    rw [peekString]
    have h : pos = 0 ∨ pos = 1 := by omega
    rcases h with h | h <;> subst h
    · simpa [BinaryBuffer.GetSize] using ih 1 _ (by omega)
    · simpa [BinaryBuffer.GetSize] using ih 0 _ (by omega)

/-- The loop of `get_free_buffer` from index `i` on: the index returned lies
between `i` and the end, every slot before it is taken, and the slot at it,
if there is one, is empty. -/
theorem freeSlotFrom_spec : ∀ (l : List (Option BinaryBuffer)) (i : Nat),
    i ≤ freeSlotFrom l i ∧ freeSlotFrom l i ≤ i + l.length ∧
    (∀ j, j < freeSlotFrom l i - i → ∃ b, l[j]? = some (some b)) ∧
    (freeSlotFrom l i < i + l.length → l[freeSlotFrom l i - i]? = some none) := by
  intro l
  induction l with
  | nil => intro i; simp [freeSlotFrom]
  | cons slot rest ih =>
    intro i
    rw [freeSlotFrom]
    cases slot with
    | none => simp
    | some b =>
      obtain ⟨h1, h2, h3, h4⟩ := ih (i + 1)
      simp only [Option.isNone_some, Bool.false_eq_true, ↓reduceIte, List.length_cons]
      refine ⟨by omega, by omega, ?_, ?_⟩
      · intro j hj
        cases j with
        | zero => exact ⟨b, by simp⟩
        | succ j =>
          obtain ⟨b', hb'⟩ := h3 j (by omega)
          exact ⟨b', by simpa using hb'⟩
      · intro hlt
        have e : freeSlotFrom rest (i + 1) - i = (freeSlotFrom rest (i + 1) - (i + 1)) + 1 := by
          omega
        rw [e]
        simpa using h4 (by omega)

/-- A list that holds a zero byte: the bytes before the first zero of the list
followed by anything are those before the first zero of the list. -/
theorem takeWhile_append_of_zero (l r : List Byte) (h : (0 : Byte) ∈ l) :
    (l ++ r).takeWhile (fun b => decide (b ≠ 0)) = l.takeWhile (fun b => decide (b ≠ 0)) := by
  induction l with
  | nil => simp at h
  | cons x xs ih =>
    by_cases hx : x = 0
    · rw [List.cons_append, List.takeWhile_cons_of_neg (by simp [hx]),
        List.takeWhile_cons_of_neg (by simp [hx])]
    · have hin : (0 : Byte) ∈ xs := by
        rcases List.mem_cons.mp h with h | h
        · exact absurd h.symm hx
        · exact h
      rw [List.cons_append, List.takeWhile_cons_of_pos (by simp [hx]),
        List.takeWhile_cons_of_pos (by simp [hx]), ih hin]

/-- On a wrapping buffer that holds a zero byte, the string loop of
`buffer_peek` goes on from index 0 at the buffer's end: it returns the bytes
before the first zero of the bytes from the position on followed by the whole
buffer. -/
theorem peekString_wrap (binbuff : BinaryBuffer) (hw : binbuff.type = buffer_wrap)
    (hz : (0 : Byte) ∈ binbuff.data) :
    ∀ (fuel pos : Nat) (acc : List Byte), pos < binbuff.data.length →
      ((binbuff.data.drop pos ++ binbuff.data).takeWhile
        (fun b => decide (b ≠ 0))).length < fuel →
      peekString binbuff fuel pos acc =
        some (acc ++ (binbuff.data.drop pos ++ binbuff.data).takeWhile
          (fun b => decide (b ≠ 0))) := by
  intro fuel
  induction fuel with
  | zero => intro pos acc _ h; omega
  | succ fuel ih =>
    intro pos acc hp h
    rw [peekString]
    unfold BinaryBuffer.GetSize
    have hd : binbuff.data.drop pos = binbuff.data[pos] :: binbuff.data.drop (pos + 1) :=
      List.drop_eq_getElem_cons hp
    have hg : binbuff.data.getD pos 0 = binbuff.data[pos] := by
      simp [List.getD, List.getElem?_eq_getElem hp]
    rw [hg]
    rw [hd, List.cons_append] at h ⊢
    by_cases hx : binbuff.data[pos] ≠ 0
    · rw [if_pos ⟨hp, hx⟩]
      rw [List.takeWhile_cons_of_pos (by simpa using hx)] at h ⊢
      simp only [hw, ↓reduceIte]
      simp only [List.length_cons] at h
      by_cases hlast : pos + 1 < binbuff.data.length
      · rw [Nat.mod_eq_of_lt hlast, ih (pos + 1) _ hlast (by omega), List.append_assoc]
        rfl
      · have hn : pos + 1 = binbuff.data.length := by omega
        have hnil : binbuff.data.drop (pos + 1) = [] :=
          List.drop_of_length_le (by omega)
        rw [hnil, List.nil_append] at h ⊢
        rw [hn, Nat.mod_self, ih 0 _ (by omega)
          (by rw [List.drop_zero, takeWhile_append_of_zero _ _ hz]; omega),
          List.drop_zero, takeWhile_append_of_zero _ _ hz, List.append_assoc]
        rfl
    · rw [if_neg (by tauto)]
      rw [List.takeWhile_cons_of_neg (by simpa using hx), List.append_nil]

/-- The bytes before the first zero of a list are no more than the list. -/
theorem length_takeWhile_le (l : List Byte) :
    (l.takeWhile (fun b => decide (b ≠ 0))).length ≤ l.length := by
  induction l with
  | nil => simp
  | cons x xs ih =>
    rw [List.takeWhile_cons]
    split
    · simp only [List.length_cons]; omega
    · simp

/-! ## The claims on the buffers -/

/-- C26 (what the code does): on a `buffer_fixed` and on a `buffer_fast`
buffer of two bytes, `buffer_poke` of the 16-bit value `0x0102` at offset 1
leaves the buffer as it was (the write is dropped), whereas `write_to_buffer`
with the same data and offset would store the byte that fits at index 1. -/
theorem buffer_poke_drops_write :
    buffer_poke FloatCodec.sample ⟨[0, 0], 0, 1, buffer_fixed⟩ 1 buffer_u16
        (variant.real 258) false = some ⟨[0, 0], 0, 1, buffer_fixed⟩ ∧
    buffer_poke FloatCodec.sample ⟨[0, 0], 0, 1, buffer_fast⟩ 1 buffer_u16
        (variant.real 258) true = some ⟨[0, 0], 0, 1, buffer_fast⟩ ∧
    serialize_to_type FloatCodec.sample (variant.real 258) buffer_u16 = [1, 2] ∧
    write_to_buffer ⟨[0, 0], 0, 1, buffer_fixed⟩ [1, 2] 1 =
      some ⟨[0, 1], 0, 1, buffer_fixed⟩ := by
  decide

/-- C27 (what the code does): on a buffer of four bytes with alignment 1,
`buffer_fill` from offset 1 with a one-byte value and the requested size
`2 ^ 64 - 1` does not clamp the size, because `offset + size` wraps around to
0, and goes on to write at index 4, outside the buffer (`none`); with the
requested size 100 it clamps and fills the indices 1 to 3. -/
theorem buffer_fill_size_wraps :
    addSize 1 (2 ^ 64 - 1) = 0 ∧
    buffer_fill BinaryBufferMethods.sample FloatCodec.sample
        ⟨[0, 0, 0, 0], 0, 1, buffer_fixed⟩ 1 buffer_u8 (variant.real 7) (2 ^ 64 - 1) = none ∧
    buffer_fill BinaryBufferMethods.sample FloatCodec.sample
        ⟨[0, 0, 0, 0], 0, 1, buffer_fixed⟩ 1 buffer_u8 (variant.real 7) 100 =
      some ⟨[0, 7, 7, 7], 0, 1, buffer_fixed⟩ := by
  decide

/-- C29: for each of the types `buffer_u8`, `buffer_s8`, `buffer_bool`,
`buffer_u16`, `buffer_s16`, `buffer_u32`, `buffer_s32` and every integer `v`
that the type represents, `deserialize_from_type` applied to the whole output
of `serialize_to_type` for `v`, with the same type, returns `v`. -/
theorem integer_round_trip (F : FloatCodec) (T : buffer_data_t) (v : Int)
    (h : representable T v) :
    deserialize_from_type F (serialize_to_type F (variant.real (v : ℚ)) T) T =
      some (variant.real (v : ℚ)) := by
  cases T <;> simp only [representable] at h
  case buffer_u8 =>
    simp only [serialize_to_type, deserialize_from_type, variant.real, List.length_singleton,
      ne_eq, not_true_eq_false, ↓reduceIte]
    rw [asUnsigned_8 v (by omega), readUnsigned_one _ (by omega)]
    exact congrArg some (real_toNat v 256 h.1 (by omega))
  case buffer_bool =>
    simp only [serialize_to_type, deserialize_from_type, variant.real, List.length_singleton,
      ne_eq, not_true_eq_false, ↓reduceIte]
    rw [asUnsigned_8 v (by omega), readUnsigned_one _ (by omega)]
    exact congrArg some (real_toNat v 256 h.1 (by omega))
  case buffer_s8 =>
    simp only [serialize_to_type, deserialize_from_type, variant.real, List.length_singleton,
      ne_eq, not_true_eq_false, ↓reduceIte]
    rw [asUnsigned_8 v (by omega), readUnsigned_one _ (by omega), toSigned_8 v h]
  case buffer_u16 =>
    simp only [serialize_to_type, deserialize_from_type, variant.real, List.length_cons,
      List.length_nil, ne_eq, not_true_eq_false, ↓reduceIte]
    rw [asUnsigned_16 v (by omega), readUnsigned_two _ (by omega)]
    exact congrArg some (real_toNat v 65536 h.1 (by omega))
  case buffer_s16 =>
    simp only [serialize_to_type, deserialize_from_type, variant.real, List.length_cons,
      List.length_nil, ne_eq, not_true_eq_false, ↓reduceIte]
    rw [asUnsigned_16 v (by omega), readUnsigned_two _ (by omega), toSigned_16 v h]
  case buffer_u32 =>
    simp only [serialize_to_type, deserialize_from_type, variant.real, List.length_cons,
      List.length_nil, ne_eq, not_true_eq_false, ↓reduceIte]
    rw [asUnsigned_32 v (by omega), readUnsigned_four _ (by omega)]
    exact congrArg some (real_toNat v 4294967296 h.1 (by omega))
  case buffer_s32 =>
    simp only [serialize_to_type, deserialize_from_type, variant.real, List.length_cons,
      List.length_nil, ne_eq, not_true_eq_false, ↓reduceIte]
    rw [asUnsigned_32 v (by omega), readUnsigned_four _ (by omega), toSigned_32 v h]

/-- C29, witness: the value `-2` as a `buffer_s16`. -/
theorem integer_round_trip_witness :
    deserialize_from_type FloatCodec.sample
        (serialize_to_type FloatCodec.sample (variant.real ((-2 : Int) : ℚ)) buffer_s16)
        buffer_s16 =
      some (variant.real ((-2 : Int) : ℚ)) :=
  integer_round_trip FloatCodec.sample buffer_s16 (-2) ⟨by decide, by decide⟩

/-- C30 (as the code has it): for every data type `T` with
`buffer_sizeof(T) != 0` other than `buffer_f16` (that is u8, s8, bool, u16,
s16, u32, s32, f32, u64, f64) and every value, the byte vector returned by
`serialize_to_type` has exactly `buffer_sizeof(T)` bytes; for `buffer_f16`,
which is unimplemented, it is empty. -/
theorem serialize_to_type_length (F : FloatCodec) (value : variant) (T : buffer_data_t)
    (hT : T ≠ buffer_f16) (hs : buffer_sizeof T ≠ 0) :
    (serialize_to_type F value T).length = buffer_sizeof T ∧
    serialize_to_type F value buffer_f16 = [] := by
  cases T <;> simp [serialize_to_type, buffer_sizeof] at hT hs ⊢

/-- C30, witness: a value serialized as `buffer_f64`. -/
theorem serialize_to_type_length_witness :
    (serialize_to_type FloatCodec.sample (variant.real 1) buffer_f64).length =
      buffer_sizeof buffer_f64 ∧
    serialize_to_type FloatCodec.sample (variant.real 1) buffer_f16 = [] :=
  serialize_to_type_length FloatCodec.sample (variant.real 1) buffer_f64
    (by decide) (by decide)

/-- C30, counterexample: `buffer_sizeof(buffer_f16)` is 2, yet
`serialize_to_type` returns no byte for `buffer_f16`. -/
theorem serialize_f16_counterexample :
    buffer_sizeof buffer_f16 ≠ 0 ∧
    (serialize_to_type FloatCodec.sample (variant.real 1) buffer_f16).length ≠
      buffer_sizeof buffer_f16 := by
  decide

/-- C31 (what the code does): for every string `s`, `deserialize_from_type`
applied to the whole output of `serialize_to_type` for `s`, with type
`buffer_string`, returns `s` followed by the terminator: one character longer
than `s`. So for the string `hi` it does not return `hi`. -/
theorem string_round_trip_keeps_terminator (F : FloatCodec) (s : List Byte) :
    deserialize_from_type F (serialize_to_type F (variant.string s) buffer_string)
        buffer_string = some (variant.string (s ++ [0])) ∧
    deserialize_from_type FloatCodec.sample
        (serialize_to_type FloatCodec.sample (variant.string [104, 105]) buffer_string)
        buffer_string ≠ some (variant.string [104, 105]) :=
  ⟨rfl, by decide⟩

/-- C32: `write_to_buffer` on a `buffer_wrap` buffer of size `n > 0` (a size a
`std::vector` can have) with data of length `m <= n` and any offset returns a
buffer of size `n` in which, for every `i < m`, the byte at index
`(offset + i) mod n` is `data[i]`, and every other index keeps its previous
byte. -/
theorem write_to_buffer_wrap (binbuff : BinaryBuffer) (data : List Byte) (offset : Nat)
    (ht : binbuff.type = buffer_wrap) (hn0 : 0 < binbuff.data.length)
    (hm : data.length ≤ binbuff.data.length) (hn : binbuff.data.length ≤ MAX_VECTOR_SIZE) :
    ∃ after, write_to_buffer binbuff data offset = some after ∧
      after.data.length = binbuff.data.length ∧
      (∀ i, i < data.length →
        after.data[(offset + i) % binbuff.data.length]? = data[i]?) ∧
      (∀ j, j < binbuff.data.length →
        (∀ i, i < data.length → (offset + i) % binbuff.data.length ≠ j) →
        after.data[j]? = binbuff.data[j]?) := by
  unfold MAX_VECTOR_SIZE at hn
  have hmod : offset % binbuff.data.length < binbuff.data.length := Nat.mod_lt _ hn0
  have hoff : (if offset ≥ binbuff.GetSize then offset % binbuff.GetSize else offset) =
      offset % binbuff.data.length := by
    unfold BinaryBuffer.GetSize
    split
    · rfl
    · exact (Nat.mod_eq_of_lt (by omega)).symm
  unfold write_to_buffer
  simp only [ht, hoff]
  rw [if_neg (by unfold BinaryBuffer.GetSize; omega)]
  have hidx := fun i (hi : i < binbuff.data.length) => wrap_index offset i _ hi
  generalize offset % binbuff.data.length = o at hmod hidx ⊢
  rw [addSize_eq _ _ (by omega)]
  by_cases hw : data.length + o > binbuff.data.length
  · simp only [hw, ↓reduceIte]
    rw [subSize_eq _ _ (by omega) (by omega)]
    have hk : data.length - (data.length + o - binbuff.data.length) =
        binbuff.data.length - o := by omega
    rw [hk]
    have hl1 : (data.take (binbuff.data.length - o)).length = binbuff.data.length - o := by
      rw [List.length_take]; omega
    have hl2 : (data.drop (binbuff.data.length - o)).length =
        data.length + o - binbuff.data.length := by
      rw [List.length_drop]; omega
    obtain ⟨d1, hd1, hdl1, hde1⟩ := copyInto_spec binbuff.data o
      (data.take (binbuff.data.length - o)) (by rw [hl1]; omega)
    rw [hd1]
    obtain ⟨d2, hd2, hdl2, hde2⟩ := copyInto_spec d1 0
      (data.drop (binbuff.data.length - o)) (by rw [hl2, hdl1]; omega)
    simp only [hd2]
    refine ⟨{ binbuff with data := d2 }, by simp [ht], by simp [hdl2, hdl1], ?_, ?_⟩
    · intro i hi
      show d2[(offset + i) % binbuff.data.length]? = data[i]?
      rw [hidx i (by omega)]
      split
      · rw [hde2, hl2, if_neg (by omega), hde1, hl1, if_pos (by omega), List.getElem?_take,
          if_pos (by omega)]
        congr 1
        omega
      · rw [hde2, hl2, if_pos (by omega), List.getElem?_drop]
        congr 1
        omega
    · intro j hj hne
      show d2[j]? = binbuff.data[j]?
      have h1 : ¬ j < data.length + o - binbuff.data.length := by
        intro hlt
        have := hne (j + binbuff.data.length - o) (by omega)
        rw [hidx _ (by omega), if_neg (by omega)] at this
        omega
      have h2 : ¬ o ≤ j := by
        intro hle
        have := hne (j - o) (by omega)
        rw [hidx _ (by omega), if_pos (by omega)] at this
        omega
      rw [hde2, hl2, if_neg (by omega), hde1, hl1, if_neg (by omega)]
  · simp only [hw, ↓reduceIte]
    obtain ⟨d, hd, hdl, hde⟩ := copyInto_spec binbuff.data o data (by omega)
    simp only [hd]
    refine ⟨{ binbuff with data := d }, by simp [ht], hdl, ?_, ?_⟩
    · intro i hi
      show d[(offset + i) % binbuff.data.length]? = data[i]?
      rw [hidx i (by omega), if_pos (by omega), hde, if_pos (by omega)]
      congr 1
      omega
    · intro j hj hne
      show d[j]? = binbuff.data[j]?
      have h2 : ¬ (o ≤ j ∧ j < o + data.length) := by
        intro hle
        have := hne (j - o) (by omega)
        rw [hidx _ (by omega), if_pos (by omega)] at this
        omega
      rw [hde, if_neg h2]

/-- C32, witness: three bytes written at offset 7 into a wrapping buffer of
four bytes. -/
theorem write_to_buffer_wrap_witness :
    ∃ after, write_to_buffer ⟨[9, 9, 9, 9], 0, 1, buffer_wrap⟩ [1, 2, 3] 7 = some after ∧
      after.data.length = (⟨[9, 9, 9, 9], 0, 1, buffer_wrap⟩ : BinaryBuffer).data.length ∧
      (∀ i, i < ([1, 2, 3] : List Byte).length →
        after.data[(7 + i) %
          (⟨[9, 9, 9, 9], 0, 1, buffer_wrap⟩ : BinaryBuffer).data.length]? =
          ([1, 2, 3] : List Byte)[i]?) ∧
      (∀ j, j < (⟨[9, 9, 9, 9], 0, 1, buffer_wrap⟩ : BinaryBuffer).data.length →
        (∀ i, i < ([1, 2, 3] : List Byte).length →
          (7 + i) % (⟨[9, 9, 9, 9], 0, 1, buffer_wrap⟩ : BinaryBuffer).data.length ≠ j) →
        after.data[j]? = (⟨[9, 9, 9, 9], 0, 1, buffer_wrap⟩ : BinaryBuffer).data[j]?) :=
  write_to_buffer_wrap ⟨[9, 9, 9, 9], 0, 1, buffer_wrap⟩ [1, 2, 3] 7 rfl
    (by decide) (by decide) (by decide)

/-- C33: `write_to_buffer` on a `buffer_fixed` or `buffer_fast` buffer of size
`n` with data of length `m` (sizes a `std::vector` can have) returns a buffer
of size `n`; if `offset >= n` the
buffer is unchanged; otherwise for every `i < min(m, n - offset)` the byte at
index `offset + i` is `data[i]`, and every index outside
`[offset, min(offset + m, n))` keeps its previous byte. -/
theorem write_to_buffer_fixed (binbuff : BinaryBuffer) (data : List Byte) (offset : Nat)
    (ht : binbuff.type = buffer_fixed ∨ binbuff.type = buffer_fast)
    (hn : binbuff.data.length ≤ MAX_VECTOR_SIZE) (hm : data.length ≤ MAX_VECTOR_SIZE) :
    ∃ after, write_to_buffer binbuff data offset = some after ∧
      after.data.length = binbuff.data.length ∧
      (offset ≥ binbuff.data.length → after = binbuff) ∧
      (∀ i, i < min data.length (binbuff.data.length - offset) →
        after.data[offset + i]? = data[i]?) ∧
      (∀ j, j < offset ∨ min (offset + data.length) binbuff.data.length ≤ j →
        after.data[j]? = binbuff.data[j]?) := by
  unfold MAX_VECTOR_SIZE at hn hm
  have hw : write_to_buffer binbuff data offset =
      (if offset ≥ binbuff.data.length then some binbuff
       else
        match copyInto binbuff.data offset
          (data.take (data.length -
            (if addSize data.length offset > binbuff.data.length then
              subSize (addSize data.length offset) binbuff.data.length
             else 0))) with
        | none => none
        | some d => some { binbuff with data := d }) := by
    unfold write_to_buffer
    rcases ht with ht | ht <;> simp only [ht]
  rw [hw]
  by_cases ho : offset ≥ binbuff.data.length
  · refine ⟨binbuff, by simp [ho], rfl, fun _ => rfl, ?_, fun _ _ => rfl⟩
    intro i hi
    omega
  · simp only [ho, ↓reduceIte]
    have ha : addSize data.length offset = data.length + offset := addSize_eq _ _ (by omega)
    rw [ha]
    generalize hover : (if data.length + offset > binbuff.data.length then
        subSize (data.length + offset) binbuff.data.length else 0) = over
    have hov : data.length - over = min data.length (binbuff.data.length - offset) := by
      rw [← hover]
      split
      · rw [subSize_eq _ _ (by omega) (by omega)]; omega
      · omega
    have hlen : (data.take (data.length - over)).length =
        min data.length (binbuff.data.length - offset) := by
      rw [List.length_take, hov]; omega
    obtain ⟨d, hd, hdl, hde⟩ := copyInto_spec binbuff.data offset
      (data.take (data.length - over)) (by rw [hlen]; omega)
    rw [hd]
    refine ⟨{ binbuff with data := d }, rfl, hdl, fun h => False.elim h, ?_, ?_⟩
    · intro i hi
      show d[offset + i]? = data[i]?
      rw [hde, hlen, if_pos (by omega), List.getElem?_take]
      have : offset + i - offset = i := by omega
      rw [this, if_pos (by omega)]
    · intro j hj
      show d[j]? = binbuff.data[j]?
      rw [hde, hlen, if_neg (by omega)]

/-- C33, witness: two bytes written at offset 2 into a fixed buffer of three
bytes. -/
theorem write_to_buffer_fixed_witness :
    ∃ after, write_to_buffer ⟨[9, 9, 9], 0, 1, buffer_fixed⟩ [1, 2] 2 = some after ∧
      after.data.length = (⟨[9, 9, 9], 0, 1, buffer_fixed⟩ : BinaryBuffer).data.length ∧
      (2 ≥ (⟨[9, 9, 9], 0, 1, buffer_fixed⟩ : BinaryBuffer).data.length →
        after = ⟨[9, 9, 9], 0, 1, buffer_fixed⟩) ∧
      (∀ i, i < min ([1, 2] : List Byte).length
          ((⟨[9, 9, 9], 0, 1, buffer_fixed⟩ : BinaryBuffer).data.length - 2) →
        after.data[2 + i]? = ([1, 2] : List Byte)[i]?) ∧
      (∀ j, j < 2 ∨ min (2 + ([1, 2] : List Byte).length)
          (⟨[9, 9, 9], 0, 1, buffer_fixed⟩ : BinaryBuffer).data.length ≤ j →
        after.data[j]? = (⟨[9, 9, 9], 0, 1, buffer_fixed⟩ : BinaryBuffer).data[j]?) :=
  write_to_buffer_fixed ⟨[9, 9, 9], 0, 1, buffer_fixed⟩ [1, 2] 2 (Or.inl rfl)
    (by decide) (by decide)

/-- C34: `write_to_buffer` on a `buffer_grow` buffer of size `n` with data of
length `m` at `offset` (where `offset + m` is a `std::size_t`) returns a
buffer of size `max(n, offset + m)` whose bytes at `[offset, offset + m)` are
the data and in which every index below `min(offset, n)` keeps its previous
byte. -/
theorem write_to_buffer_grow (binbuff : BinaryBuffer) (data : List Byte) (offset : Nat)
    (ht : binbuff.type = buffer_grow) (h : offset + data.length < SIZE_RANGE) :
    ∃ after, write_to_buffer binbuff data offset = some after ∧
      after.data.length = max binbuff.data.length (offset + data.length) ∧
      (∀ i, i < data.length → after.data[offset + i]? = data[i]?) ∧
      (∀ j, j < min offset binbuff.data.length → after.data[j]? = binbuff.data[j]?) := by
  unfold SIZE_RANGE at h
  unfold write_to_buffer
  simp only [ht]
  rw [addSize_eq _ _ (by omega)]
  generalize hb : (if data.length + offset > binbuff.data.length then
      binbuff.Resize (data.length + offset) else binbuff) = grown
  have hlen : grown.data.length = max binbuff.data.length (offset + data.length) := by
    rw [← hb]
    split
    · simp [BinaryBuffer.Resize]; omega
    · omega
  have hkeep : ∀ j, j < binbuff.data.length → grown.data[j]? = binbuff.data[j]? := by
    intro j hj
    rw [← hb]
    split
    · simp only [BinaryBuffer.Resize]
      rw [List.getElem?_append_left (by simp; omega), List.getElem?_take, if_pos (by omega)]
    · rfl
  obtain ⟨d, hd, hdl, hde⟩ := copyInto_spec grown.data offset data (by omega)
  rw [hd]
  refine ⟨{ grown with data := d }, rfl, by simpa [hdl] using hlen, ?_, ?_⟩
  · intro i hi
    show d[offset + i]? = data[i]?
    rw [hde, if_pos (by omega)]
    congr 1
    omega
  · intro j hj
    show d[j]? = binbuff.data[j]?
    rw [hde, if_neg (by omega)]
    exact hkeep j (by omega)

/-- C34, witness: two bytes written at offset 3 into a growing buffer of one
byte. -/
theorem write_to_buffer_grow_witness :
    ∃ after, write_to_buffer ⟨[9], 0, 1, buffer_grow⟩ [1, 2] 3 = some after ∧
      after.data.length =
        max (⟨[9], 0, 1, buffer_grow⟩ : BinaryBuffer).data.length
          (3 + ([1, 2] : List Byte).length) ∧
      (∀ i, i < ([1, 2] : List Byte).length →
        after.data[3 + i]? = ([1, 2] : List Byte)[i]?) ∧
      (∀ j, j < min 3 (⟨[9], 0, 1, buffer_grow⟩ : BinaryBuffer).data.length →
        after.data[j]? = (⟨[9], 0, 1, buffer_grow⟩ : BinaryBuffer).data[j]?) :=
  write_to_buffer_grow ⟨[9], 0, 1, buffer_grow⟩ [1, 2] 3 rfl (by decide)

/-- C35 (what the code does): `buffer_copy` of 4 bytes from a buffer of four
bytes into a `buffer_fixed` buffer of two bytes, both offsets 0, writes at
index 2 of the destination, outside it (`none`): the copy loop runs over
`size`, not over the truncated number of bytes. With size 2 it fits. -/
theorem buffer_copy_writes_past_end :
    buffer_copy ⟨[1, 2, 3, 4], 0, 1, buffer_fixed⟩ 0 4 ⟨[0, 0], 0, 1, buffer_fixed⟩ 0 =
      none ∧
    buffer_copy ⟨[1, 2, 3, 4], 0, 1, buffer_fixed⟩ 0 4 ⟨[0, 0], 0, 1, buffer_fast⟩ 0 =
      none ∧
    buffer_copy ⟨[1, 2, 3, 4], 0, 1, buffer_fixed⟩ 0 2 ⟨[0, 0], 0, 1, buffer_fixed⟩ 0 =
      some ⟨[1, 2], 0, 1, buffer_fixed⟩ := by
  decide

/-- C36 (what the code does): for `buffer_text` the end of `buffer_read` and
of `buffer_write` seeks to `position + buffer_sizeof(buffer_text)`, which is
the position itself, instead of scanning to the terminator. On the buffer
holding `hi` and its terminator, `buffer_read` leaves the position at 3 for
`buffer_string` and at 0 for `buffer_text`, and so does `buffer_write` of
`hi`. -/
theorem buffer_text_position_not_advanced (M : BinaryBufferMethods) (fuel : Nat)
    (binbuff : BinaryBuffer) :
    advancePosition M fuel binbuff buffer_text =
      some (M.Seek binbuff (addSize binbuff.position (buffer_sizeof buffer_text))) ∧
    buffer_sizeof buffer_text = 0 ∧
    buffer_read BinaryBufferMethods.sample FloatCodec.sample 10
        ⟨[104, 105, 0, 7], 0, 1, buffer_fixed⟩ buffer_string =
      some (variant.string [104, 105], ⟨[104, 105, 0, 7], 3, 1, buffer_fixed⟩) ∧
    buffer_read BinaryBufferMethods.sample FloatCodec.sample 10
        ⟨[104, 105, 0, 7], 0, 1, buffer_fixed⟩ buffer_text =
      some (variant.string [104, 105], ⟨[104, 105, 0, 7], 0, 1, buffer_fixed⟩) ∧
    buffer_write BinaryBufferMethods.sample FloatCodec.sample 10
        ⟨[9, 9, 9, 9], 0, 1, buffer_fixed⟩ buffer_string (variant.string [104, 105]) =
      some ⟨[104, 105, 0, 9], 3, 1, buffer_fixed⟩ ∧
    buffer_write BinaryBufferMethods.sample FloatCodec.sample 10
        ⟨[9, 9, 9, 9], 0, 1, buffer_fixed⟩ buffer_text (variant.string [104, 105]) =
      some ⟨[104, 105, 0, 9], 0, 1, buffer_fixed⟩ :=
  ⟨rfl, rfl, by decide, by decide, by decide, by decide⟩

/-- C37 (as the code has it): `buffer_peek` with type `buffer_string` or
`buffer_text`, given fuel above twice the buffer's size, returns on a buffer
that is not `buffer_wrap`, for every offset, the bytes from the offset up to,
and not including, the first zero byte, or up to the buffer's end when no zero
byte follows; on a `buffer_wrap` buffer that holds a zero byte, for an offset
inside the buffer, the scan goes on from index 0 at the buffer's end, and the
bytes returned are those before the first zero byte of the bytes from the
offset on followed by the buffer from its start. -/
theorem buffer_peek_string (F : FloatCodec) (fuel : Nat) (binbuff : BinaryBuffer)
    (offset : Nat) (type : buffer_data_t)
    (hty : type = buffer_string ∨ type = buffer_text)
    (hf : 2 * binbuff.data.length < fuel) :
    (binbuff.type ≠ buffer_wrap →
      buffer_peek F fuel binbuff offset type =
        some (variant.string
          ((binbuff.data.drop offset).takeWhile (fun b => decide (b ≠ 0))))) ∧
    (binbuff.type = buffer_wrap → offset < binbuff.data.length →
      (0 : Byte) ∈ binbuff.data →
      buffer_peek F fuel binbuff offset type =
        some (variant.string
          ((binbuff.data.drop offset ++ binbuff.data).takeWhile
            (fun b => decide (b ≠ 0))))) := by
  have hb : buffer_peek F fuel binbuff offset type =
      match peekString binbuff fuel offset [] with
      | none => none
      | some data => some (variant.string data) := by
    unfold buffer_peek
    rcases hty with h | h <;> subst h <;> simp
  constructor
  · intro hw
    rw [hb, peekString_no_wrap binbuff hw fuel offset [] (by omega)]
    rfl
  · intro hw ho hz
    have hlen := length_takeWhile_le (binbuff.data.drop offset ++ binbuff.data)
    rw [hb, peekString_wrap binbuff hw hz fuel offset [] ho
      (by simp only [List.length_append, List.length_drop] at hlen; omega)]
    rfl

/-- C37, witness: a wrapping buffer of four bytes with its zero byte before
the offset. -/
theorem buffer_peek_string_witness :
    ((⟨[3, 0, 1, 2], 0, 1, buffer_wrap⟩ : BinaryBuffer).type ≠ buffer_wrap →
      buffer_peek FloatCodec.sample 9 ⟨[3, 0, 1, 2], 0, 1, buffer_wrap⟩ 2 buffer_string =
        some (variant.string
          (((⟨[3, 0, 1, 2], 0, 1, buffer_wrap⟩ : BinaryBuffer).data.drop 2).takeWhile
            (fun b => decide (b ≠ 0))))) ∧
    ((⟨[3, 0, 1, 2], 0, 1, buffer_wrap⟩ : BinaryBuffer).type = buffer_wrap →
      2 < (⟨[3, 0, 1, 2], 0, 1, buffer_wrap⟩ : BinaryBuffer).data.length →
      (0 : Byte) ∈ (⟨[3, 0, 1, 2], 0, 1, buffer_wrap⟩ : BinaryBuffer).data →
      buffer_peek FloatCodec.sample 9 ⟨[3, 0, 1, 2], 0, 1, buffer_wrap⟩ 2 buffer_string =
        some (variant.string
          (((⟨[3, 0, 1, 2], 0, 1, buffer_wrap⟩ : BinaryBuffer).data.drop 2 ++
            (⟨[3, 0, 1, 2], 0, 1, buffer_wrap⟩ : BinaryBuffer).data).takeWhile
            (fun b => decide (b ≠ 0))))) :=
  buffer_peek_string FloatCodec.sample 9 ⟨[3, 0, 1, 2], 0, 1, buffer_wrap⟩ 2 buffer_string
    (Or.inl rfl) (by decide)

/-- C37, counterexample: on the wrapping buffer `[3, 0, 1, 2]` `buffer_peek`
from offset 2 returns the bytes `1 2 3`, not the bytes `1 2` up to the
buffer's end; and on the wrapping buffer `[1, 2]`, which holds no zero byte,
it returns with no fuel at all. -/
theorem buffer_peek_wrap_counterexample :
    buffer_peek FloatCodec.sample 9 ⟨[3, 0, 1, 2], 0, 1, buffer_wrap⟩ 2 buffer_string =
      some (variant.string [1, 2, 3]) ∧
    (([3, 0, 1, 2] : List Byte).drop 2).takeWhile (fun b => decide (b ≠ 0)) = [1, 2] ∧
    ∀ fuel : Nat,
      buffer_peek FloatCodec.sample fuel ⟨[1, 2], 0, 1, buffer_wrap⟩ 0 buffer_string =
        none := by
  refine ⟨by decide, by decide, ?_⟩
  intro fuel
  unfold buffer_peek
  simp [peekString_wrap_runs_on fuel 0 [] (by decide)]

/-- C38: `get_free_buffer` returns the least index whose slot is empty: the
index is at most `buffers.size()`, every slot before it is taken, the slot at
it is empty when it is below `buffers.size()`, and it is `buffers.size()`
exactly when no slot is empty. `make_new_buffer` returns that index, stores
the new buffer there, and lengthens the array by one only when no slot was
empty. -/
theorem get_free_buffer_least (buffers : Buffers) :
    get_free_buffer buffers ≤ buffers.length ∧
    (∀ j, j < get_free_buffer buffers → ∃ b, buffers[j]? = some (some b)) ∧
    (get_free_buffer buffers < buffers.length →
      buffers[get_free_buffer buffers]? = some none) ∧
    (get_free_buffer buffers = buffers.length ↔
      ∀ j, j < buffers.length → buffers[j]? ≠ some none) ∧
    ∀ (size : Nat) (type : buffer_type_t) (alignment : Nat),
      (make_new_buffer buffers size type alignment).1 = get_free_buffer buffers ∧
      (make_new_buffer buffers size type alignment).2[get_free_buffer buffers]? =
        some (some ⟨List.replicate size 0, 0, alignment, type⟩) ∧
      (make_new_buffer buffers size type alignment).2.length =
        if get_free_buffer buffers = buffers.length then buffers.length + 1
        else buffers.length := by
  obtain ⟨_, h2, h3, h4⟩ := freeSlotFrom_spec buffers 0
  simp only [Nat.zero_add, Nat.sub_zero] at h2 h3 h4
  have hle : get_free_buffer buffers ≤ buffers.length := h2
  refine ⟨hle, h3, h4, ?_, ?_⟩
  · constructor
    · intro he j hj
      obtain ⟨b, hb⟩ := h3 j (by unfold get_free_buffer at he; omega)
      rw [hb]
      simp
    · intro hall
      by_contra hne
      have hlt : get_free_buffer buffers < buffers.length := by omega
      exact hall _ hlt (h4 hlt)
  · intro size type alignment
    unfold make_new_buffer
    by_cases he : get_free_buffer buffers = buffers.length
    · simp [he]
    · have hlt : get_free_buffer buffers < buffers.length := by omega
      simp [he, hlt]

end enigma_user
